import Mathlib

/-!
Verification of the core of the Health-Insurance-Fraud-Detection pipeline:
the Feature Encoder (`src/features/build_features.py`, `src/data/preprocess.py`)
and the Validation Engine (`src/utils/validate_data.py`).

The tabular data model is a shallow embedding of a pandas DataFrame:
an ordered list of named, dtyped columns.  Cell values are strings,
integers, booleans or the missing marker `na` (pandas `NaN`).  Numeric
literals are modelled as integers (the incomes handled by the claims are
integer literals; the no-null results below do not depend on the numeric
representation).
-/

deriving instance DecidableEq for Except

/-- Cell value of a tabular column: string, integer, boolean or missing
(pandas `NaN`). -/
inductive Val where
  | str (s : String)
  | int (n : Int)
  | bool (b : Bool)
  | na
deriving DecidableEq, Repr

/-- Column dtypes that the pipeline distinguishes: `object` (raw/str
columns), `int64`, `float64`, nullable `Int64` (written `int64N`) and
`bool` (written `boolT`). -/
inductive Dtype where
  | object | int64 | float64 | int64N | boolT
deriving DecidableEq, Repr

/-- A pandas Series: a dtype plus the list of cell values. -/
structure Series where
  dtype : Dtype
  vals : List Val
deriving DecidableEq, Repr

/-- A named column of a DataFrame. -/
structure Col where
  name : String
  series : Series
deriving DecidableEq, Repr

/-- A DataFrame: ordered list of named columns (rows are the i-th entries
of each column's value list). -/
abbrev DataFrame := List Col

/-- Python `str()` of a cell value; `str()` of pandas `NaN` is `"nan"`
(the form produced by `astype(str)` on a column read with `read_excel`). -/
def strOfVal : Val → String
  | .str s => s
  | .int n => toString n
  | .bool b => if b then "True" else "False"
  | .na => "nan"

/-- First column with the given name (pandas label lookup `df[c]`). -/
def findCol : DataFrame → String → Option Col
  | [], _ => none
  | c :: cs, n => if c.name = n then some c else findCol cs n

/-- Python `c in df.columns`. -/
def hasCol (df : DataFrame) (n : String) : Bool :=
  (findCol df n).isSome

/-- Assignment `df[n] = f(df[n])`: rewrite the series of every column
named `n`, leaving the rest untouched. -/
def setColWith (df : DataFrame) (n : String) (f : Series → Series) : DataFrame :=
  df.map (fun c => if c.name = n then ⟨c.name, f c.series⟩ else c)

/-- Embeds `df.drop(columns=names)` (missing names ignored). -/
def dropCols (df : DataFrame) (names : List String) : DataFrame :=
  df.filter (fun c => !(names.contains c.name))

/-- Embeds `Series.dropna()`. -/
def dropna (vals : List Val) : List Val :=
  vals.filter (fun v => !(v = Val.na))

/-- Helper for `uniqueList`: first-appearance-order deduplication with an
accumulator (the accumulator holds the already-seen values, reversed). -/
def uniqueAux (acc : List Val) : List Val → List Val
  | [] => acc.reverse
  | v :: vs => if v ∈ acc then uniqueAux acc vs else uniqueAux (v :: acc) vs

/-- Embeds `Series.unique()`: distinct values in order of first appearance. -/
def uniqueList (l : List Val) : List Val := uniqueAux [] l

/-- Embeds `Series.dropna().nunique()`: number of distinct non-null values. -/
def nuniqueVals (vals : List Val) : Nat :=
  (uniqueList (dropna vals)).length

/-- Embeds `Series.astype(str)`: every cell becomes its `str()` form (dtype
`object`); in particular `NaN` becomes the string `"nan"`. -/
def Series.astypeStr (s : Series) : Series :=
  ⟨.object, s.vals.map (fun v => Val.str (strOfVal v))⟩

/-- Lookup in a Python dict literal built from an association list: the
last binding of a repeated key wins. -/
def dictLookup (d : List (String × Int)) (k : String) : Option Int :=
  (d.reverse.find? (fun p => p.1 = k)).map (·.2)

/-- Embeds `Series.map(dict)`: keys of the dict are strings; any value that is
not a string key of the dict (including `NaN`) maps to `NaN`. -/
def mapSeriesDict (d : List (String × Int)) (vals : List Val) : List Val :=
  vals.map (fun v =>
    match v with
    | .str t =>
      match dictLookup d t with
      | some n => Val.int n
      | none => Val.na
    | _ => Val.na)

/-- Lexicographic comparison of two character lists by code point
(Python's string order). -/
def charsLe : List Char → List Char → Bool
  | [], _ => true
  | _ :: _, [] => false
  | a :: as, b :: bs =>
    if a.toNat < b.toNat then true
    else if b.toNat < a.toNat then false
    else charsLe as bs

/-- Python `s <= t` on strings: lexicographic by code point. -/
def strLe (a b : String) : Bool := charsLe a.toList b.toList

/-- Insertion step for lexicographic sorting of strings. -/
def insortStr (x : String) : List String → List String
  | [] => [x]
  | y :: ys => if strLe x y then x :: y :: ys else y :: insortStr x ys

/-- Python `sorted` on a list of strings (lexicographic, by code point). -/
def sortStr (l : List String) : List String := l.foldr insortStr []

/-!
`src/features/build_features.py`, `_map_binary_series` (lines 7-30):

```python
def _map_binary_series(s: pd.Series) -> pd.Series:
    vals = list(pd.Series(s.dropna().unique()).astype(str))
    valset = set(vals)
    if valset == {"M", "F"}:
        return s.map({"M": 0, "F": 1}).astype("Int64")
    if valset == {"Legitimate", "Fraud"}:
        return s.map({"Legitimate": 0, "Fraud": 1}).astype("Int64")
    if len(vals) == 2:
        sorted_vals = sorted(vals)
        mapping = {sorted_vals[0]: 0, sorted_vals[1]: 1}
        return s.astype(str).map(mapping).astype("Int64")
    return s
```
-/

/-- Python set equality of the sets of elements of two string lists. -/
def setEqStr (a b : List String) : Bool :=
  a.all (fun x => b.contains x) && b.all (fun x => a.contains x)

/-- The `mapping` dict `{sorted_vals[0]: 0, sorted_vals[1]: 1}` of the
generic branch (as an association list; a repeated key keeps the later
binding via `dictLookup`). -/
def genericMapping (sortedVals : List String) : List (String × Int) :=
  sortedVals.enum.map (fun p => (p.2, (p.1 : Int)))

/-- Embeds `_map_binary_series` from `build_features.py` lines 7-30. -/
def mapBinarySeries (s : Series) : Series :=
  let vals : List String := (uniqueList (dropna s.vals)).map strOfVal
  if setEqStr vals ["M", "F"] then
    ⟨.int64N, mapSeriesDict [("M", 0), ("F", 1)] s.vals⟩
  else if setEqStr vals ["Legitimate", "Fraud"] then
    ⟨.int64N, mapSeriesDict [("Legitimate", 0), ("Fraud", 1)] s.vals⟩
  else if vals.length = 2 then
    ⟨.int64N, mapSeriesDict (genericMapping (sortStr vals)) s.astypeStr.vals⟩
  else s

/-- Total comparison used to sort the category levels of a column
(`pd.get_dummies` sorts the distinct values).  Strings compare
lexicographically by code point, integers numerically.  A mixed-type
column makes pandas raise; the cross-type ordering chosen here is
immaterial for such columns (the pipelines one-hot only homogeneous
string columns). -/
def valLe (a b : Val) : Bool :=
  match a, b with
  | .str x, .str y => strLe x y
  | .int m, .int n => m ≤ n
  | .bool x, .bool y => !x || y
  | _, _ => true

/-- Insertion step for `sortVals`. -/
def insortVal (x : Val) : List Val → List Val
  | [] => [x]
  | y :: ys => if valLe x y then x :: y :: ys else y :: insortVal x ys

/-- Sorted list of values (insertion sort by `valLe`). -/
def sortVals (l : List Val) : List Val := l.foldr insortVal []

/-- Category levels of a column as `pd.get_dummies` computes them:
the distinct non-null values, sorted. -/
def dummyLevels (vs : List Val) : List Val := sortVals (uniqueList (dropna vs))

/-- One-hot expansion of a single column with `drop_first=True`: one
boolean indicator column per non-baseline level (the baseline is the
first sorted level), named `name_level`; a null row gets `False` in
every indicator (`dummy_na=False`). -/
def getDummiesCol (name : String) (vs : List Val) : List Col :=
  ((dummyLevels vs).drop 1).map (fun lv =>
    ⟨name ++ "_" ++ strOfVal lv, ⟨.boolT, vs.map (fun v => Val.bool (v == lv))⟩⟩)

/-- Embeds `pd.get_dummies(df, columns=cols, drop_first=True)`: the columns not
listed keep their order, the indicator columns are appended at the end,
grouped per source column in the order of `cols`.  (pandas raises on a
listed name that is absent; both call sites pass only present names, so
the `none` branch is unreachable there.) -/
def getDummies (df : DataFrame) (cols : List String) : DataFrame :=
  df.filter (fun c => !(cols.contains c.name)) ++
    cols.foldr (fun n acc =>
      (match findCol df n with
       | some c => getDummiesCol n c.series.vals
       | none => []) ++ acc) []

/-- Digit-string parser: `some` of the value of a non-empty all-digit
character list, else `none`. -/
def parseDigitsAux : List Char → Nat → Option Nat
  | [], acc => some acc
  | c :: cs, acc =>
    if 48 ≤ c.toNat && c.toNat ≤ 57 then parseDigitsAux cs (acc * 10 + (c.toNat - 48))
    else none

/-- Model of the numeric-literal parsing done by `pd.to_numeric`:
an optional sign followed by digits parses to an integer, anything else
fails (the claims' inputs are integer literals or non-numeric strings). -/
def parsePyNumber (s : String) : Option Int :=
  match s.toList with
  | [] => none
  | '-' :: cs => if cs.isEmpty then none else (parseDigitsAux cs 0).map (fun n => -(n : Int))
  | '+' :: cs => if cs.isEmpty then none else (parseDigitsAux cs 0).map (fun n => (n : Int))
  | cs => (parseDigitsAux cs 0).map (fun n => (n : Int))

/-- Embeds `pd.to_numeric(v, errors="coerce")` on one cell: a string parses or
becomes `NaN`, a boolean becomes 0/1, numbers and `NaN` are unchanged. -/
def toNumericVal : Val → Val
  | .str s => match parsePyNumber s with | some n => .int n | none => .na
  | .int n => .int n
  | .bool b => .int (if b then 1 else 0)
  | .na => .na

/-- Embeds `pd.to_numeric(series, errors="coerce")`: the result is `float64`
when any value is `NaN` (pandas holds `NaN` only in float columns),
else `int64`. -/
def toNumericSeries (s : Series) : Series :=
  let vs := s.vals.map toNumericVal
  ⟨if vs.contains Val.na then .float64 else .int64, vs⟩

/-- Embeds `series.fillna(0)`: nulls become 0, dtype unchanged. -/
def fillna0 (s : Series) : Series :=
  ⟨s.dtype, s.vals.map (fun v => if v = Val.na then Val.int 0 else v)⟩

/-- Embeds `series.fillna(0).astype(int)` (build_features STEP 8): nulls become
0 and the dtype becomes plain `int64`. -/
def fillna0Int (s : Series) : Series :=
  ⟨.int64, s.vals.map (fun v => if v = Val.na then Val.int 0 else v)⟩

/-- Embeds `series.astype(int)` on a boolean column. -/
def boolToInt (s : Series) : Series :=
  ⟨.int64, s.vals.map (fun v =>
    match v with
    | .bool b => Val.int (if b then 1 else 0)
    | v => v)⟩

/-- Embeds `pd.api.types.is_integer_dtype`: `int64` and nullable `Int64`. -/
def isIntegerDtype : Dtype → Bool
  | .int64 => true
  | .int64N => true
  | _ => false

/-- Embeds `select_dtypes(include="number")`: `int64`, `float64`, `Int64`
(booleans are not "number" in pandas). -/
def isNumericDtype : Dtype → Bool
  | .int64 => true
  | .int64N => true
  | .float64 => true
  | _ => false

/-- STEP 5 (build_features) / step 3 (preprocess): coerce the
`PatientIncome` column to numeric when it is present. -/
def incomeStep (df : DataFrame) : DataFrame :=
  if hasCol df "PatientIncome" then setColWith df "PatientIncome" toNumericSeries else df

/-- STEP 7 (build_features) / step 5 (preprocess): convert every
boolean column to integer 0/1. -/
def boolIntStep (df : DataFrame) : DataFrame :=
  df.map (fun c => if c.series.dtype == Dtype.boolT then ⟨c.name, boolToInt c.series⟩ else c)

/-- Step 6 of `preprocess_insurance_data`: fill every null of every
numeric column with 0. -/
def fillNumStep (df : DataFrame) : DataFrame :=
  df.map (fun c => if isNumericDtype c.series.dtype then ⟨c.name, fillna0 c.series⟩ else c)

/-!
`src/features/build_features.py`, `build_features` (lines 33-94).
-/

/-- STEP 1 of `build_features`: names of the `object`-dtype columns
(`df.select_dtypes(include=["object"]).columns`). -/
def objColsOf (df : DataFrame) : List String :=
  (df.filter (fun c => c.series.dtype == Dtype.object)).map (·.name)

/-- Embeds `df[n].dropna().nunique()` (0 for an absent column; only called on
present names). -/
def nuniqueOf (df : DataFrame) (n : String) : Nat :=
  match findCol df n with
  | some c => nuniqueVals c.series.vals
  | none => 0

/-- STEP 2 of `build_features`: object columns with exactly two distinct
non-null values. -/
def binaryColsOf (df : DataFrame) : List String :=
  (objColsOf df).filter (fun c => nuniqueOf df c == 2)

/-- STEP 2 of `build_features`: object columns with more than two
distinct non-null values. -/
def multiColsOf (df : DataFrame) : List String :=
  (objColsOf df).filter (fun c => 2 < nuniqueOf df c)

/-- STEP 3 of `build_features`:
`for c in binary_cols: df[c] = _map_binary_series(df[c].astype(str))`. -/
def encodeBinaryCols (df : DataFrame) : List String → DataFrame
  | [] => df
  | c :: cs => encodeBinaryCols (setColWith df c (fun s => mapBinarySeries s.astypeStr)) cs

/-- The identifier/date columns dropped by both pipelines. -/
def dropIdCols : List String := ["ClaimID", "PatientID", "ProviderID", "ClaimDate"]

/-- STEP 8 of `build_features`:
`for c in binary_cols: if pd.api.types.is_integer_dtype(df[c]): df[c] = df[c].fillna(0).astype(int)`.
`df[c]` raises `KeyError` when a binary column was dropped in STEP 6. -/
def fillBinaryIntCols (df : DataFrame) : List String → Except String DataFrame
  | [] => .ok df
  | c :: cs =>
    match findCol df c with
    | none => .error ("KeyError: " ++ c)
    | some col =>
      fillBinaryIntCols
        (if isIntegerDtype col.series.dtype then setColWith df c (fun _ => fillna0Int col.series)
         else df) cs

/-- STEP 4 of `build_features`: one-hot expansion of the multi-valued
categorical columns, guarded by `if multi_cols:`. -/
def multiStepBF (df : DataFrame) (cols : List String) : DataFrame :=
  if cols.isEmpty then df else getDummies df cols

/-- Embeds `build_features` (lines 33-94).  Line 42 copies the argument, so the
whole pipeline operates on the copy; the `Except` layer models the
`KeyError` raised in STEP 8 when a binary column is among the dropped
identifier columns. -/
def build_features (df : DataFrame) : Except String DataFrame :=
  fillBinaryIntCols
    (boolIntStep
      (dropCols
        (incomeStep (multiStepBF (encodeBinaryCols df (binaryColsOf df)) (multiColsOf df)))
        dropIdCols))
    (binaryColsOf df)

/-- State of the caller's frame after `build_features` returns: line 42
(`df = df.copy()`) makes every later statement act on the copy, so the
argument is untouched. -/
def buildFeaturesArgAfter (df : DataFrame) : DataFrame := df

/-!
`src/data/preprocess.py`, `preprocess_insurance_data` (lines 3-49).
-/

/-- The dict of step 1 of `preprocess_insurance_data`:
`{'F': 1, 'M': 0, 'Fraud': 1, 'Legitimate': 0}` applied via `replace`
(values not equal to a key are unchanged). -/
def replaceBinaryVal : Val → Val
  | .str "F" => .int 1
  | .str "M" => .int 0
  | .str "Fraud" => .int 1
  | .str "Legitimate" => .int 0
  | v => v

/-- Embeds `series.replace({...})`: cells equal to a key are replaced; pandas
downcasts the result to `int64` when every resulting cell is an
integer, else the dtype is unchanged. -/
def replaceBinarySeries (s : Series) : Series :=
  let vs := s.vals.map replaceBinaryVal
  ⟨if vs.all (fun v => match v with | .int _ => true | _ => false) then .int64 else s.dtype, vs⟩

/-- Step 1 of `preprocess_insurance_data`: in-place `replace` on the
`PatientGender` and `ClaimLegitimacy` columns of the caller's frame
(the function does NOT copy its argument first). -/
def binaryReplace (df : DataFrame) : DataFrame :=
  ["PatientGender", "ClaimLegitimacy"].foldl
    (fun d c => if hasCol d c then setColWith d c replaceBinarySeries else d) df

/-- The fixed one-hot column list of step 2 of `preprocess_insurance_data`. -/
def multipleCols : List String :=
  ["DiagnosisCode", "ProcedureCode", "ProviderSpecialty", "ClaimStatus",
   "PatientMaritalStatus", "PatientEmploymentStatus", "ProviderLocation",
   "ClaimType", "ClaimSubmissionMethod"]

/-- Step 2 of `preprocess_insurance_data`: one-hot expansion of the
columns of `multipleCols` that are present. -/
def oneHotPreprocess (df : DataFrame) : DataFrame :=
  getDummies df (multipleCols.filter (fun c => hasCol df c))

/-- Embeds `preprocess_insurance_data` (lines 3-49): binary replace, one-hot
expansion of the present `multipleCols`, income coercion, identifier
drop, boolean-to-int conversion, and a final `fillna(0)` over every
numeric column. -/
def preprocess_insurance_data (df : DataFrame) : DataFrame :=
  fillNumStep
    (boolIntStep
      (dropCols (incomeStep (oneHotPreprocess (binaryReplace df))) dropIdCols))

/-- State of the caller's frame after `preprocess_insurance_data`
returns: step 1 assigns the replaced binary columns into the caller's
frame (`df[col] = df[col].replace(...)` before any rebinding of `df`),
so the caller observes exactly `binaryReplace df`; every later step acts
on the fresh frame returned by `pd.get_dummies`. -/
def preprocessArgAfter (df : DataFrame) : DataFrame := binaryReplace df

/-!
`src/utils/validate_data.py`, `validate_insurance_data` (lines 9-94).

The function evaluates `great_expectations` (legacy `ge.dataset.PandasDataset`)
expectations interactively and then re-runs the recorded suite with
`ge_df.validate()`.  The library semantics modelled here:

* each interactive `expect_*` call evaluates immediately with the default
  `catch_exceptions=False`, so an exception inside an expectation (e.g. the
  `KeyError` of the pandas column lookup `self[column]` on a missing column,
  or the `TypeError` that `expect_column_values_to_be_between` raises when a
  string value is compared against the numeric `min_value`) propagates out
  of `validate_insurance_data`;
* `expect_column_to_exist` only tests membership in `df.columns` and never
  raises;
* column-map expectations (`not_be_null`, `be_in_set`, `be_between`) skip
  null cells (except `not_be_null`, whose success is exactly "no nulls");
  with no `mostly` argument they succeed iff no non-ignored cell fails;
* `expect_column_pair_values_to_be_in_set` uses the default
  `ignore_row_if="both_values_are_missing"`: a row is skipped iff both
  cells are null; any other row must have its (string) pair in the set;
* each call also records its expectation config in the suite, and a second
  call of the same expectation type on the same column replaces the first
  config (so the duplicated not-null check on `PatientIncome` appears once,
  at its later position);
* `ge_df.validate()` re-runs the recorded suite with `catch_exceptions=True`
  (its default), so at that stage a raising expectation is recorded as a
  failed result instead of propagating.
-/

/-- The `required_cols` list of `validate_data.py` lines 26-31. -/
def requiredCols : List String :=
  ["ClaimID", "PatientID", "ProviderID", "ClaimDate", "ClaimLegitimacy",
   "PatientGender", "DiagnosisCode", "ProcedureCode", "ProviderSpecialty",
   "ClaimStatus", "PatientMaritalStatus", "PatientEmploymentStatus",
   "ProviderLocation", "ClaimType", "ClaimSubmissionMethod", "PatientIncome"]

/-- Domain of `PatientGender`. -/
def genderDomain : List String := ["M", "F"]

/-- Domain of `ClaimLegitimacy`. -/
def legitimacyDomain : List String := ["Fraud", "Legitimate"]

/-- Domain of `PatientMaritalStatus`. -/
def maritalDomain : List String := ["Single", "Married", "Divorced", "Widowed", "Other"]

/-- Domain of `PatientEmploymentStatus`. -/
def employmentDomain : List String :=
  ["Employed", "Unemployed", "Self-employed", "Retired", "Student"]

/-- Domain of `ClaimType`. -/
def claimTypeDomain : List String := ["Inpatient", "Outpatient", "Emergency", "Pharmacy"]

/-- Domain of `ClaimSubmissionMethod`. -/
def submissionDomain : List String := ["Online", "Paper", "Email", "Other"]

/-- Domain of `ClaimStatus`. -/
def statusDomain : List String := ["Approved", "Rejected", "Pending", "Investigating"]

/-- The `value_pairs` allow-list of the pairwise-consistency check
(lines 67-72). -/
def allowedPairs : List (String × String) :=
  [("Fraud", "Investigating"), ("Fraud", "Rejected"),
   ("Legitimate", "Approved"), ("Legitimate", "Pending")]

/-- Test for a string-valued cell (the cell type that makes the
`be_between` comparison raise `TypeError` against the numeric bound). -/
def isStrVal : Val → Bool
  | .str _ => true
  | _ => false

/-- One expectation of the validation suite. -/
inductive Check where
  | exist (c : String)
  | notNull (c : String)
  | inSet (c : String) (dom : List String)
  | betweenMin0 (c : String)
  | pairInSet (ca cb : String) (pairs : List (String × String))
deriving DecidableEq, Repr

/-- The `expectation_type` string recorded for each check (these are the
entries of the returned `failed_expectations` list). -/
def checkName : Check → String
  | .exist _ => "expect_column_to_exist"
  | .notNull _ => "expect_column_values_to_not_be_null"
  | .inSet _ _ => "expect_column_values_to_be_in_set"
  | .betweenMin0 _ => "expect_column_values_to_be_between"
  | .pairInSet _ _ _ => "expect_column_pair_values_to_be_in_set"

/-- Python `v in value_set` for a cell against a set of strings. -/
def valInStrSet (dom : List String) (v : Val) : Bool :=
  dom.any (fun d => v == Val.str d)

/-- One row of the pair check: the `(A, B)` tuple is in `value_pairs`. -/
def pairRowOk (pairs : List (String × String)) (a b : Val) : Bool :=
  pairs.any (fun p => a == Val.str p.1 && b == Val.str p.2)

/-- Embeds `expect_column_pair_values_to_be_in_set` on the two value lists:
rows in which both cells are null are ignored
(`ignore_row_if="both_values_are_missing"`), every other row's pair must
be in the allow-list. -/
def expectPairVals (pairs : List (String × String)) (la lb : List Val) : Bool :=
  ((la.zip lb).filter (fun p => !(p.1 == Val.na && p.2 == Val.na))).all
    (fun p => pairRowOk pairs p.1 p.2)

/-- Evaluate one expectation on the frame; `Except.error` models an
exception escaping the expectation (`catch_exceptions=False`). -/
def evalCheck (df : DataFrame) : Check → Except String Bool
  | .exist c => .ok (hasCol df c)
  | .notNull c =>
    match findCol df c with
    | none => .error ("KeyError: " ++ c)
    | some col => .ok (col.series.vals.all (fun v => !(v == Val.na)))
  | .inSet c dom =>
    match findCol df c with
    | none => .error ("KeyError: " ++ c)
    | some col => .ok (col.series.vals.all (fun v => v == Val.na || valInStrSet dom v))
  | .betweenMin0 c =>
    match findCol df c with
    | none => .error ("KeyError: " ++ c)
    | some col =>
      if col.series.vals.any isStrVal then
        .error "TypeError: Column values, min_value, and max_value must either be None or of the same type."
      else
        .ok (col.series.vals.all (fun v =>
          match v with
          | .int n => decide (0 ≤ n)
          | _ => true))
  | .pairInSet ca cb pairs =>
    match findCol df ca, findCol df cb with
    | some a, some b => .ok (expectPairVals pairs a.series.vals b.series.vals)
    | none, _ => .error ("KeyError: " ++ ca)
    | _, none => .error ("KeyError: " ++ cb)

/-- All income cells are non-strings (otherwise the interactive
`expect_column_values_to_be_between` call raises `TypeError`); vacuously
true when the column is absent. -/
def incomeNoStrings (df : DataFrame) : Bool :=
  match findCol df "PatientIncome" with
  | some col => col.series.vals.all (fun v => !(isStrVal v))
  | none => true

/-- The schema loop (lines 32-34): `expect_column_to_exist` then
`expect_column_values_to_not_be_null` for each required column. -/
def schemaCallsAux : List String → List Check
  | [] => []
  | c :: cs => .exist c :: .notNull c :: schemaCallsAux cs

/-- The category checks (lines 40-53), in call order. -/
def domainCalls : List Check :=
  [.inSet "PatientGender" genderDomain,
   .inSet "ClaimLegitimacy" legitimacyDomain,
   .inSet "PatientMaritalStatus" maritalDomain,
   .inSet "PatientEmploymentStatus" employmentDomain,
   .inSet "ClaimType" claimTypeDomain,
   .inSet "ClaimSubmissionMethod" submissionDomain,
   .inSet "ClaimStatus" statusDomain]

/-- The calls after the schema loop: category checks, the numeric checks
on `PatientIncome` (lines 57-58) and, when both columns are present, the
pairwise-consistency check (lines 63-73). -/
def tailCalls (df : DataFrame) : List Check :=
  domainCalls ++ [.betweenMin0 "PatientIncome", .notNull "PatientIncome"] ++
    (if hasCol df "ClaimStatus" && hasCol df "ClaimLegitimacy" then
      [.pairInSet "ClaimLegitimacy" "ClaimStatus" allowedPairs]
    else [])

/-- Every interactive expectation call of `validate_insurance_data`, in
source order. -/
def interactiveCalls (df : DataFrame) : List Check :=
  schemaCallsAux requiredCols ++ tailCalls df

/-- Run the interactive calls with `catch_exceptions=False`: the first
exception aborts `validate_insurance_data`. -/
def runCalls (df : DataFrame) : List Check → Except String Unit
  | [] => .ok ()
  | ck :: cks =>
    match evalCheck df ck with
    | .error e => .error e
    | .ok _ => runCalls df cks

/-- The schema part of the recorded suite: the duplicated
`expect_column_values_to_not_be_null("PatientIncome")` of line 58
replaced the config recorded in the loop, so the loop contributes no
not-null check for `PatientIncome`. -/
def schemaSuiteAux : List String → List Check
  | [] => []
  | c :: cs =>
    if c = "PatientIncome" then .exist c :: schemaSuiteAux cs
    else .exist c :: .notNull c :: schemaSuiteAux cs

/-- The deduplicated expectation suite that `ge_df.validate()` re-runs. -/
def suiteChecks (df : DataFrame) : List Check :=
  schemaSuiteAux requiredCols ++ tailCalls df

/-- Result of one suite entry under `ge_df.validate()`
(`catch_exceptions=True`): an exception is recorded as failure. -/
def evalOk (df : DataFrame) (ck : Check) : Bool :=
  match evalCheck df ck with
  | .ok b => b
  | .error _ => false

/-- Embeds `validate_insurance_data` (lines 9-94): returns
`(results["success"], failed_expectations)`, or raises (`Except.error`)
when an interactive expectation raises. -/
def validate_insurance_data (df : DataFrame) : Except String (Bool × List String) :=
  match runCalls df (interactiveCalls df) with
  | .error e => .error e
  | .ok _ =>
    let results := (suiteChecks df).map (fun ck => (checkName ck, evalOk df ck))
    .ok (results.all (fun r => r.2), (results.filter (fun r => !r.2)).map (fun r => r.1))

/-- Cells of a "string column": each cell is a string or a null. -/
def isStrOrNa : Val → Bool
  | .str _ => true
  | .na => true
  | _ => false

/-! Auxiliary lemmas about the embedded pandas primitives. -/

theorem mem_uniqueAux (x : Val) :
    ∀ (l acc : List Val), x ∈ uniqueAux acc l ↔ x ∈ acc ∨ x ∈ l := by
  intro l
  induction l with
  | nil => intro acc; simp [uniqueAux]
  | cons v vs ih =>
    intro acc
    by_cases hv : v ∈ acc
    · simp only [uniqueAux, if_pos hv, ih]
      constructor
      · rintro (h | h)
        · exact Or.inl h
        · exact Or.inr (List.mem_cons_of_mem _ h)
      · rintro (h | h)
        · exact Or.inl h
        · rcases List.mem_cons.mp h with rfl | h
          · exact Or.inl hv
          · exact Or.inr h
    · simp only [uniqueAux, if_neg hv, ih]
      constructor
      · rintro (h | h)
        · rcases List.mem_cons.mp h with rfl | h
          · exact Or.inr (List.mem_cons_self _ _)
          · exact Or.inl h
        · exact Or.inr (List.mem_cons_of_mem _ h)
      · rintro (h | h)
        · exact Or.inl (List.mem_cons_of_mem _ h)
        · rcases List.mem_cons.mp h with rfl | h
          · exact Or.inl (List.mem_cons_self _ _)
          · exact Or.inr h

theorem mem_uniqueList {x : Val} {l : List Val} : x ∈ uniqueList l ↔ x ∈ l := by
  simp [uniqueList, mem_uniqueAux]

theorem nodup_uniqueAux :
    ∀ (l acc : List Val), acc.Nodup → (uniqueAux acc l).Nodup := by
  intro l
  induction l with
  | nil => intro acc h; simpa [uniqueAux] using h
  | cons v vs ih =>
    intro acc h
    by_cases hv : v ∈ acc
    · simpa [uniqueAux, if_pos hv] using ih acc h
    · exact (by simpa [uniqueAux, if_neg hv] using ih (v :: acc) (List.nodup_cons.mpr ⟨hv, h⟩))

theorem nodup_uniqueList (l : List Val) : (uniqueList l).Nodup :=
  nodup_uniqueAux l [] List.nodup_nil

theorem mem_dropna {x : Val} {l : List Val} : x ∈ dropna l ↔ x ∈ l ∧ x ≠ Val.na := by
  simp [dropna, List.mem_filter]

theorem na_not_mem_dropna (l : List Val) : Val.na ∉ dropna l := by
  intro h
  exact (mem_dropna.mp h).2 rfl

theorem insortVal_perm (x : Val) (l : List Val) : (insortVal x l).Perm (x :: l) := by
  induction l with
  | nil => simp [insortVal]
  | cons y ys ih =>
    by_cases h : valLe x y
    · simp [insortVal, if_pos h]
    · simp only [insortVal, if_neg h]
      exact (List.Perm.cons y ih).trans (List.Perm.swap x y ys)

theorem sortVals_perm (l : List Val) : (sortVals l).Perm l := by
  induction l with
  | nil => simp [sortVals]
  | cons x xs ih =>
    have : sortVals (x :: xs) = insortVal x (sortVals xs) := rfl
    rw [this]
    exact (insortVal_perm x (sortVals xs)).trans (List.Perm.cons x ih)

theorem mem_sortVals {x : Val} {l : List Val} : x ∈ sortVals l ↔ x ∈ l :=
  (sortVals_perm l).mem_iff

theorem length_sortVals (l : List Val) : (sortVals l).length = l.length :=
  (sortVals_perm l).length_eq

theorem nodup_sortVals {l : List Val} (h : l.Nodup) : (sortVals l).Nodup :=
  ((sortVals_perm l).nodup_iff).mpr h

theorem dummyLevels_nodup (vs : List Val) : (dummyLevels vs).Nodup :=
  nodup_sortVals (nodup_uniqueList _)

theorem mem_dummyLevels {x : Val} {vs : List Val} :
    x ∈ dummyLevels vs ↔ x ∈ vs ∧ x ≠ Val.na := by
  simp [dummyLevels, mem_sortVals, mem_uniqueList, mem_dropna]

theorem dummyLevels_length (vs : List Val) :
    (dummyLevels vs).length = (uniqueList (dropna vs)).length :=
  length_sortVals _
theorem findCol_mem {df : DataFrame} {n : String} {c : Col}
    (h : findCol df n = some c) : c ∈ df := by
  induction df with
  | nil => simp [findCol] at h
  | cons d ds ih =>
    by_cases hd : d.name = n
    · simp only [findCol, if_pos hd, Option.some.injEq] at h
      exact h ▸ List.mem_cons_self _ _
    · simp only [findCol, if_neg hd] at h
      exact List.mem_cons_of_mem _ (ih h)

theorem findCol_name {df : DataFrame} {n : String} {c : Col}
    (h : findCol df n = some c) : c.name = n := by
  induction df with
  | nil => simp [findCol] at h
  | cons d ds ih =>
    by_cases hd : d.name = n
    · simp only [findCol, if_pos hd, Option.some.injEq] at h
      exact h ▸ hd
    · simp only [findCol, if_neg hd] at h
      exact ih h

theorem hasCol_iff {df : DataFrame} {n : String} :
    hasCol df n = true ↔ ∃ c, findCol df n = some c := by
  simp [hasCol, Option.isSome_iff_exists]

theorem findCol_map_pres (df : DataFrame) (g : Col → Col) (m : String)
    (hg : ∀ c, (g c).name = c.name) :
    findCol (df.map g) m = (findCol df m).map g := by
  induction df with
  | nil => simp [findCol]
  | cons d ds ih =>
    by_cases hd : d.name = m
    · simp [findCol, hg, hd]
    · simp only [List.map_cons, findCol, hg, if_neg hd]
      exact ih

theorem setColWith_name_pres (n : String) (f : Series → Series) :
    ∀ c : Col, ((fun c => if c.name = n then (⟨c.name, f c.series⟩ : Col) else c) c).name
      = c.name := by
  intro c
  by_cases h : c.name = n <;> simp [h]

theorem findCol_setColWith (df : DataFrame) (n m : String) (f : Series → Series) :
    findCol (setColWith df n f) m
      = (findCol df m).map (fun c => if c.name = n then ⟨c.name, f c.series⟩ else c) :=
  findCol_map_pres df _ m (setColWith_name_pres n f)

theorem findCol_setColWith_ne (df : DataFrame) (n m : String) (f : Series → Series)
    (h : m ≠ n) : findCol (setColWith df n f) m = findCol df m := by
  rw [findCol_setColWith]
  cases hf : findCol df m with
  | none => rfl
  | some c =>
    have hc : c.name = m := findCol_name hf
    simp [hc, h]

theorem findCol_setColWith_eq (df : DataFrame) (n : String) (f : Series → Series) :
    findCol (setColWith df n f) n
      = (findCol df n).map (fun c => (⟨c.name, f c.series⟩ : Col)) := by
  rw [findCol_setColWith]
  cases hf : findCol df n with
  | none => rfl
  | some c =>
    have hc : c.name = n := findCol_name hf
    simp [hc]

theorem findCol_filter_names (df : DataFrame) (names : List String) (m : String)
    (h : names.contains m = false) :
    findCol (df.filter (fun c => !(names.contains c.name))) m = findCol df m := by
  induction df with
  | nil => simp [findCol]
  | cons d ds ih =>
    by_cases hd : d.name = m
    · have hc : names.contains d.name = false := by rw [hd]; exact h
      simp only [List.filter_cons, hc, Bool.not_false, if_pos]
      simp only [findCol, if_pos hd]
    · by_cases hk : names.contains d.name
      · simp only [List.filter_cons, hk, Bool.not_true]
        rw [if_neg (by simp)]
        rw [show findCol (d :: ds) m = findCol ds m from by simp [findCol, if_neg hd]]
        exact ih
      · simp only [List.filter_cons, Bool.not_eq_true] at hk
        simp only [List.filter_cons, hk, Bool.not_false, if_pos]
        simp only [findCol, if_neg hd]
        exact ih

theorem findCol_dropCols (df : DataFrame) (names : List String) (m : String)
    (h : names.contains m = false) : findCol (dropCols df names) m = findCol df m :=
  findCol_filter_names df names m h

theorem findCol_append_left {df1 : DataFrame} (df2 : DataFrame) {m : String} {c : Col}
    (h : findCol df1 m = some c) : findCol (df1 ++ df2) m = some c := by
  induction df1 with
  | nil => simp [findCol] at h
  | cons d ds ih =>
    by_cases hd : d.name = m
    · simp only [findCol, if_pos hd] at h ⊢
      exact h
    · simp only [List.cons_append, findCol, if_neg hd] at h ⊢
      exact ih h

theorem na_not_mem_fillna0 (s : Series) : Val.na ∉ (fillna0 s).vals := by
  intro h
  rcases List.mem_map.mp h with ⟨v, _, hv⟩
  by_cases hna : v = Val.na
  · rw [if_pos hna] at hv
    exact Val.noConfusion hv
  · rw [if_neg hna] at hv
    exact hna hv

theorem setEqStr_iff {a b : List String} :
    setEqStr a b = true ↔ (∀ x ∈ a, x ∈ b) ∧ (∀ x ∈ b, x ∈ a) := by
  simp [setEqStr, List.all_eq_true]

theorem setEqStr_false_of_longer {l m : List String} (hn : l.Nodup)
    (hl : m.length < l.length) : setEqStr l m = false := by
  rw [Bool.eq_false_iff]
  intro h
  have hsub : ∀ x ∈ l, x ∈ m := (setEqStr_iff.mp h).1
  have := (hn.subperm hsub).length_le
  omega

theorem sortStr_pair (a b : String) :
    sortStr [a, b] = if strLe a b then [a, b] else [b, a] := by
  by_cases h : strLe a b
  · simp [sortStr, insortStr, h]
  · simp [sortStr, insortStr, h]

theorem genericMapping_pair (x y : String) :
    genericMapping [x, y] = [(x, 0), (y, 1)] := rfl

theorem dictLookup_pair (k0 k1 t : String) (n0 n1 : Int) :
    dictLookup [(k0, n0), (k1, n1)] t
      = if k1 = t then some n1 else if k0 = t then some n0 else none := by
  by_cases h1 : k1 = t
  · simp [dictLookup, List.find?, h1]
  · by_cases h0 : k0 = t
    · simp [dictLookup, List.find?, h1, h0]
    · simp [dictLookup, List.find?, h1, h0]

theorem mapSeriesDict_pair (k0 k1 : String) (h : k0 ≠ k1) (vals : List Val) :
    mapSeriesDict [(k0, 0), (k1, 1)] vals
      = vals.map (fun v =>
          if v = Val.str k0 then Val.int 0
          else if v = Val.str k1 then Val.int 1 else Val.na) := by
  unfold mapSeriesDict
  apply List.map_congr_left
  intro v _
  cases v with
  | str t =>
    simp only [dictLookup_pair]
    by_cases h1 : k1 = t
    · subst h1
      simp [Ne.symm h]
    · by_cases h0 : k0 = t
      · subst h0
        simp [h1]
      · simp [h1, h0, Ne.symm h0, Ne.symm h1]
  | int n => simp
  | bool b => simp
  | na => simp

/-- C1: for a column whose two distinct observed (non-null) values
stringify to the set {"M","F"}, `_map_binary_series` maps the cell "M"
to 0 and "F" to 1; for the set {"Fraud","Legitimate"} it maps
"Legitimate" to 0 and "Fraud" to 1; for any other pair of two distinct
observed string forms it maps the lexicographically smaller form to 0
and the larger to 1.  In every case the code of a cell is a function of
the cell's value and the observed value set alone, hence independent of
row order.  (A column containing nulls reaches the helper with the
extra stringified value "nan" and is not covered — see C10.) -/
theorem binary_encoding_stable (s : Series) (a b : String) :
    (setEqStr ((uniqueList (dropna s.vals)).map strOfVal) ["M", "F"] = true →
      (mapBinarySeries s).vals = s.vals.map (fun v =>
        if v = Val.str "M" then Val.int 0
        else if v = Val.str "F" then Val.int 1 else Val.na)) ∧
    (setEqStr ((uniqueList (dropna s.vals)).map strOfVal) ["Legitimate", "Fraud"] = true →
      (mapBinarySeries s).vals = s.vals.map (fun v =>
        if v = Val.str "Legitimate" then Val.int 0
        else if v = Val.str "Fraud" then Val.int 1 else Val.na)) ∧
    ((uniqueList (dropna s.vals)).map strOfVal = [a, b] → a ≠ b →
      setEqStr [a, b] ["M", "F"] = false →
      setEqStr [a, b] ["Legitimate", "Fraud"] = false →
      (mapBinarySeries s).vals = s.vals.map (fun v =>
        if strOfVal v = (if strLe a b then a else b) then Val.int 0
        else if strOfVal v = (if strLe a b then b else a) then Val.int 1 else Val.na)) := by
  refine ⟨fun h => ?_, fun h => ?_, fun h hab hMF hFL => ?_⟩
  · simp only [mapBinarySeries, h, if_true]
    rw [mapSeriesDict_pair "M" "F" (by decide)]
  · have hLeg : "Legitimate" ∈ (uniqueList (dropna s.vals)).map strOfVal :=
      (setEqStr_iff.mp h).2 _ (by simp)
    have hMF : setEqStr ((uniqueList (dropna s.vals)).map strOfVal) ["M", "F"] = false := by
      rw [Bool.eq_false_iff]
      intro hx
      have := (setEqStr_iff.mp hx).1 _ hLeg
      simp at this
    simp only [mapBinarySeries, hMF, h, Bool.false_eq_true, if_false, if_true]
    rw [mapSeriesDict_pair "Legitimate" "Fraud" (by decide)]
  · simp only [mapBinarySeries, h, hMF, hFL, Bool.false_eq_true, if_false,
      List.length_cons, List.length_nil]
    rw [if_pos trivial]
    rw [sortStr_pair]
    by_cases hsl : strLe a b
    · rw [if_pos hsl, genericMapping_pair,
        mapSeriesDict_pair a b hab, Series.astypeStr, List.map_map]
      simp only [if_pos hsl]
      apply List.map_congr_left
      intro v _
      simp [Function.comp]
    · rw [if_neg hsl, genericMapping_pair,
        mapSeriesDict_pair b a (Ne.symm hab), Series.astypeStr, List.map_map]
      simp only [if_neg hsl]
      apply List.map_congr_left
      intro v _
      simp [Function.comp]

/-- Witness for C1: the three cases at concrete series. -/
theorem binary_encoding_stable_witness :
    (mapBinarySeries ⟨.object, [.str "F", .str "M"]⟩).vals = [.int 1, .int 0] ∧
    (mapBinarySeries ⟨.object, [.str "Fraud", .str "Legitimate"]⟩).vals = [.int 1, .int 0] ∧
    (mapBinarySeries ⟨.object, [.str "B", .str "A"]⟩).vals = [.int 1, .int 0] := by
  refine ⟨?_, ?_, ?_⟩
  · rw [(binary_encoding_stable ⟨.object, [.str "F", .str "M"]⟩ "" "").1 (by decide)]
    decide
  · rw [(binary_encoding_stable ⟨.object, [.str "Fraud", .str "Legitimate"]⟩ "" "").2.1
      (by decide)]
    decide
  · rw [(binary_encoding_stable ⟨.object, [.str "B", .str "A"]⟩ "B" "A").2.2
      (by decide) (by decide) (by decide) (by decide)]
    decide

/-- C4: the encoder is a deterministic pure function of its input
batch: two calls on equal batches yield identical outputs (same columns,
same order, same values) for both pipeline variants.  Neither embedded
function takes or produces any state besides the batch, mirroring the
absence of global state in the source. -/
theorem encode_deterministic (df1 df2 : DataFrame) (h : df1 = df2) :
    build_features df1 = build_features df2 ∧
    preprocess_insurance_data df1 = preprocess_insurance_data df2 := by
  subst h
  exact ⟨rfl, rfl⟩

/-- Witness for C4 at a concrete batch. -/
theorem encode_deterministic_witness :
    build_features [⟨"G", ⟨.object, [.str "F", .str "M"]⟩⟩]
        = build_features [⟨"G", ⟨.object, [.str "F", .str "M"]⟩⟩] ∧
    preprocess_insurance_data [⟨"G", ⟨.object, [.str "F", .str "M"]⟩⟩]
        = preprocess_insurance_data [⟨"G", ⟨.object, [.str "F", .str "M"]⟩⟩] :=
  encode_deterministic _ _ rfl

theorem findCol_condSet (df : DataFrame) (n m : String) (f : Series → Series)
    (h : m ≠ n) :
    findCol (if hasCol df n then setColWith df n f else df) m = findCol df m := by
  split
  · exact findCol_setColWith_ne df n m f h
  · rfl

/-- C5 (amended): `build_features` never mutates its argument (its
first statement copies the frame), while `preprocess_insurance_data`
does mutate it — but only the `PatientGender` and `ClaimLegitimacy`
columns, which its first step replaces in place in the caller's frame;
every other column of the caller's frame is unchanged after the call. -/
theorem encode_no_mutation_amended (df : DataFrame) :
    buildFeaturesArgAfter df = df ∧
    ∀ m : String, m ≠ "PatientGender" → m ≠ "ClaimLegitimacy" →
      findCol (preprocessArgAfter df) m = findCol df m := by
  refine ⟨rfl, fun m h1 h2 => ?_⟩
  show findCol (binaryReplace df) m = findCol df m
  unfold binaryReplace
  simp only [List.foldl]
  rw [findCol_condSet _ _ _ _ h2, findCol_condSet _ _ _ _ h1]

/-- Witness for C5 at a concrete batch and column. -/
theorem encode_no_mutation_witness :
    buildFeaturesArgAfter [⟨"A", ⟨.object, [.str "x"]⟩⟩] = [⟨"A", ⟨.object, [.str "x"]⟩⟩] ∧
    findCol (preprocessArgAfter [⟨"A", ⟨.object, [.str "x"]⟩⟩]) "A"
      = findCol [⟨"A", ⟨.object, [.str "x"]⟩⟩] "A" := by
  have h := encode_no_mutation_amended [⟨"A", ⟨.object, [.str "x"]⟩⟩]
  exact ⟨h.1, h.2 "A" (by decide) (by decide)⟩

/-- Counterexample to **C5** as stated: after `preprocess_insurance_data`
runs, the caller's batch does not hold the values it held before the
call — the in-place `replace` of step 1 rewrote the `PatientGender`
column of the argument itself. -/
theorem preprocess_mutates_counterexample :
    preprocessArgAfter [⟨"PatientGender", ⟨.object, [.str "F", .str "M"]⟩⟩]
        = [⟨"PatientGender", ⟨.int64, [.int 1, .int 0]⟩⟩] ∧
    preprocessArgAfter [⟨"PatientGender", ⟨.object, [.str "F", .str "M"]⟩⟩]
        ≠ [⟨"PatientGender", ⟨.object, [.str "F", .str "M"]⟩⟩] :=
  ⟨by decide, by decide⟩

/-- Counterexample to **C6** as stated: on the scenario batch
`validate_insurance_data` does not return success=true — twelve required
columns are absent, and the interactive non-null check of the first one
(`ClaimID`) raises `KeyError` (legacy great_expectations evaluates it
with `catch_exceptions=False`), so `validate` raises instead of
returning a report. -/
theorem scenario_validate_counterexample :
    validate_insurance_data
        [⟨"PatientGender", ⟨.object, [.str "F"]⟩⟩,
         ⟨"ClaimLegitimacy", ⟨.object, [.str "Fraud"]⟩⟩,
         ⟨"ClaimStatus", ⟨.object, [.str "Investigating"]⟩⟩,
         ⟨"PatientIncome", ⟨.object, [.str "1200"]⟩⟩]
      = .error "KeyError: ClaimID" := by decide

/-- C6 (amended): on the scenario batch `validate_insurance_data`
raises `KeyError: ClaimID` (missing required column) instead of
returning success=true.  `preprocess_insurance_data` produces the row
Gender=1, Legitimacy=1, Income=1200 with zero status one-hot columns
(one observed status value, and the baseline level is dropped), whereas
`build_features` leaves Gender, Legitimacy and Status as raw strings:
each of those columns shows a single distinct value in this one-row
batch, so none is classified binary-categorical; only the income cell
is coerced to the number 1200. -/
theorem scenario_amended :
    validate_insurance_data
        [⟨"PatientGender", ⟨.object, [.str "F"]⟩⟩,
         ⟨"ClaimLegitimacy", ⟨.object, [.str "Fraud"]⟩⟩,
         ⟨"ClaimStatus", ⟨.object, [.str "Investigating"]⟩⟩,
         ⟨"PatientIncome", ⟨.object, [.str "1200"]⟩⟩]
      = .error "KeyError: ClaimID" ∧
    preprocess_insurance_data
        [⟨"PatientGender", ⟨.object, [.str "F"]⟩⟩,
         ⟨"ClaimLegitimacy", ⟨.object, [.str "Fraud"]⟩⟩,
         ⟨"ClaimStatus", ⟨.object, [.str "Investigating"]⟩⟩,
         ⟨"PatientIncome", ⟨.object, [.str "1200"]⟩⟩]
      = [⟨"PatientGender", ⟨.int64, [.int 1]⟩⟩,
         ⟨"ClaimLegitimacy", ⟨.int64, [.int 1]⟩⟩,
         ⟨"PatientIncome", ⟨.int64, [.int 1200]⟩⟩] ∧
    build_features
        [⟨"PatientGender", ⟨.object, [.str "F"]⟩⟩,
         ⟨"ClaimLegitimacy", ⟨.object, [.str "Fraud"]⟩⟩,
         ⟨"ClaimStatus", ⟨.object, [.str "Investigating"]⟩⟩,
         ⟨"PatientIncome", ⟨.object, [.str "1200"]⟩⟩]
      = .ok
        [⟨"PatientGender", ⟨.object, [.str "F"]⟩⟩,
         ⟨"ClaimLegitimacy", ⟨.object, [.str "Fraud"]⟩⟩,
         ⟨"ClaimStatus", ⟨.object, [.str "Investigating"]⟩⟩,
         ⟨"PatientIncome", ⟨.int64, [.int 1200]⟩⟩] :=
  ⟨by decide, by decide, by decide⟩

theorem findCol_binaryReplace (df : DataFrame) (m : String)
    (h1 : m ≠ "PatientGender") (h2 : m ≠ "ClaimLegitimacy") :
    findCol (binaryReplace df) m = findCol df m := by
  unfold binaryReplace
  simp only [List.foldl]
  rw [findCol_condSet _ _ _ _ h2, findCol_condSet _ _ _ _ h1]

theorem boolIntStep_name_pres :
    ∀ c : Col, ((fun c => if c.series.dtype == Dtype.boolT
        then (⟨c.name, boolToInt c.series⟩ : Col) else c) c).name = c.name := by
  intro c
  by_cases h : c.series.dtype == Dtype.boolT <;> simp [h]

theorem findCol_boolIntStep (df : DataFrame) (m : String) :
    findCol (boolIntStep df) m
      = (findCol df m).map (fun c => if c.series.dtype == Dtype.boolT
          then ⟨c.name, boolToInt c.series⟩ else c) :=
  findCol_map_pres df _ m boolIntStep_name_pres

theorem fillNumStep_name_pres :
    ∀ c : Col, ((fun c => if isNumericDtype c.series.dtype
        then (⟨c.name, fillna0 c.series⟩ : Col) else c) c).name = c.name := by
  intro c
  by_cases h : isNumericDtype c.series.dtype <;> simp [h]

theorem findCol_fillNumStep (df : DataFrame) (m : String) :
    findCol (fillNumStep df) m
      = (findCol df m).map (fun c => if isNumericDtype c.series.dtype
          then ⟨c.name, fillna0 c.series⟩ else c) :=
  findCol_map_pres df _ m fillNumStep_name_pres

theorem toNumericSeries_not_bool (s : Series) :
    ((toNumericSeries s).dtype == Dtype.boolT) = false := by
  simp only [toNumericSeries]
  split <;> rfl

theorem toNumericSeries_numeric (s : Series) :
    isNumericDtype (toNumericSeries s).dtype = true := by
  simp only [toNumericSeries]
  split <;> rfl

theorem findCol_getDummies (df : DataFrame) (cols : List String) (m : String) (c : Col)
    (hc : cols.contains m = false) (h : findCol df m = some c) :
    findCol (getDummies df cols) m = some c := by
  unfold getDummies
  apply findCol_append_left
  rw [findCol_filter_names _ _ _ hc]
  exact h

/-- Counterexample to **C2** as stated: `build_features` fills nulls only
in binary-encoded columns (STEP 8), so an income value that fails
numeric coercion survives as a null in a numeric (`float64`) column of
the output instead of being present as 0. -/
theorem no_null_counterexample :
    build_features [⟨"PatientIncome", ⟨.object, [.str "abc"]⟩⟩]
      = .ok [⟨"PatientIncome", ⟨.float64, [.na]⟩⟩] := by decide

/-- C2 (amended): the no-null guarantee holds for the
`preprocess_insurance_data` variant of the encoder, whose final step
fills every null of every numeric column with 0: no numeric column of
its output contains a null, and the output income column is exactly the
coerced input income column with every value whose coercion failed (and
every pre-existing null) present as 0.  `build_features` lacks the
final fill and violates the claim (see the counterexample). -/
theorem no_null_guarantee_amended (df : DataFrame)
    (_hnodup : (df.map Col.name).Nodup) :
    (∀ col ∈ preprocess_insurance_data df,
      isNumericDtype col.series.dtype = true → Val.na ∉ col.series.vals) ∧
    (∀ colI, findCol df "PatientIncome" = some colI →
      findCol (preprocess_insurance_data df) "PatientIncome"
        = some ⟨"PatientIncome", fillna0 (toNumericSeries colI.series)⟩ ∧
      (fillna0 (toNumericSeries colI.series)).vals
        = colI.series.vals.map (fun v =>
            if toNumericVal v = Val.na then Val.int 0 else toNumericVal v)) := by
  constructor
  · intro col hcol hnum
    have hmem : col ∈
        (boolIntStep (dropCols (incomeStep (oneHotPreprocess (binaryReplace df)))
          dropIdCols)).map
          (fun c => if isNumericDtype c.series.dtype
            then (⟨c.name, fillna0 c.series⟩ : Col) else c) := hcol
    rcases List.mem_map.mp hmem with ⟨c, _, hgc⟩
    by_cases hb : isNumericDtype c.series.dtype
    · rw [if_pos hb] at hgc
      rw [← hgc]
      exact na_not_mem_fillna0 c.series
    · rw [if_neg hb] at hgc
      rw [← hgc] at hnum
      exact absurd hnum (by simpa using hb)
  · intro colI hI
    have hname : colI.name = "PatientIncome" := findCol_name hI
    have h1 : findCol (binaryReplace df) "PatientIncome" = some colI :=
      (findCol_binaryReplace df _ (by decide) (by decide)).trans hI
    have h2 : findCol (oneHotPreprocess (binaryReplace df)) "PatientIncome" = some colI := by
      unfold oneHotPreprocess
      refine findCol_getDummies _ _ _ _ ?_ h1
      rw [Bool.eq_false_iff]
      intro hc
      have hmem : "PatientIncome" ∈ multipleCols :=
        List.mem_of_mem_filter (by simpa using hc)
      simp [multipleCols] at hmem
    have h3 : findCol (incomeStep (oneHotPreprocess (binaryReplace df))) "PatientIncome"
        = some ⟨"PatientIncome", toNumericSeries colI.series⟩ := by
      unfold incomeStep
      rw [if_pos (hasCol_iff.mpr ⟨colI, h2⟩), findCol_setColWith_eq, h2]
      simp [hname]
    have h4 : findCol (dropCols (incomeStep (oneHotPreprocess (binaryReplace df)))
        dropIdCols) "PatientIncome" = some ⟨"PatientIncome", toNumericSeries colI.series⟩ := by
      rw [findCol_dropCols _ _ _ (by decide)]
      exact h3
    have h5 : findCol (boolIntStep (dropCols (incomeStep (oneHotPreprocess
        (binaryReplace df))) dropIdCols)) "PatientIncome"
        = some ⟨"PatientIncome", toNumericSeries colI.series⟩ := by
      rw [findCol_boolIntStep, h4]
      have hb : ((toNumericSeries colI.series).dtype == Dtype.boolT) = false :=
        toNumericSeries_not_bool _
      simp only [Option.map_some']
      rw [if_neg (by simpa using hb)]
    refine ⟨?_, ?_⟩
    · show findCol (fillNumStep _) _ = _
      rw [findCol_fillNumStep, h5]
      have hb : isNumericDtype (toNumericSeries colI.series).dtype = true :=
        toNumericSeries_numeric _
      simp [hb]
    · simp [fillna0, toNumericSeries, List.map_map, Function.comp]

/-- Witness for C2 at a concrete batch with one unparseable and one
parseable income string. -/
theorem no_null_guarantee_witness :
    (∀ col ∈ preprocess_insurance_data
        [⟨"PatientIncome", ⟨.object, [.str "abc", .str "5"]⟩⟩],
      isNumericDtype col.series.dtype = true → Val.na ∉ col.series.vals) ∧
    findCol (preprocess_insurance_data
        [⟨"PatientIncome", ⟨.object, [.str "abc", .str "5"]⟩⟩]) "PatientIncome"
      = some ⟨"PatientIncome", fillna0 (toNumericSeries ⟨.object, [.str "abc", .str "5"]⟩)⟩ := by
  have h := no_null_guarantee_amended
    [⟨"PatientIncome", ⟨.object, [.str "abc", .str "5"]⟩⟩] (by decide)
  exact ⟨h.1, (h.2 ⟨"PatientIncome", ⟨.object, [.str "abc", .str "5"]⟩⟩ (by decide)).1⟩

theorem filter_eq_length_le_one {l : List Val} (hl : l.Nodup) (v : Val) :
    (l.filter (fun x => decide (v = x))).length ≤ 1 := by
  induction l with
  | nil => simp
  | cons x xs ih =>
    rw [List.nodup_cons] at hl
    by_cases hvx : v = x
    · subst hvx
      rw [List.filter_cons, if_pos (by simp)]
      have hnil : xs.filter (fun x => decide (v = x)) = [] := by
        rw [List.filter_eq_nil_iff]
        intro a ha hde
        exact hl.1 ((of_decide_eq_true hde) ▸ ha)
      simp [hnil]
    · rw [List.filter_cons, if_neg (by simpa using hvx)]
      exact ih hl.2

/-- Counterexample to **C3** as stated: a multi-valued column that also
contains a null.  `build_features` one-hot-expands the column
`[a, b, c, null]` into the k−1 = 2 indicator columns, but in the null
row (index 3) every indicator is 0 although the row's value is not the
dropped baseline "a" — the claimed "all indicators 0 exactly when the
value is the baseline" biconditional fails on null rows. -/
theorem one_hot_counterexample :
    build_features [⟨"Color", ⟨.object, [.str "a", .str "b", .str "c", .na]⟩⟩]
      = .ok [⟨"Color_b", ⟨.int64, [.int 0, .int 1, .int 0, .int 0]⟩⟩,
             ⟨"Color_c", ⟨.int64, [.int 0, .int 0, .int 1, .int 0]⟩⟩] ∧
    [Val.str "a", Val.str "b", Val.str "c", Val.na].get? 3 = some Val.na ∧
    (dummyLevels [Val.str "a", Val.str "b", Val.str "c", Val.na]).headD Val.na
      = Val.str "a" ∧
    (Val.na : Val) ≠ Val.str "a" :=
  ⟨by decide, by decide, by decide, by decide⟩
/-- C3 (amended): one-hot expansion of a column with k > 2 distinct
observed (non-null) values produces exactly k−1 indicator columns
replacing the source column; in every row at most one indicator is 1,
and all indicators are 0 exactly when the row's value is the dropped
baseline (the first sorted level) **or null** (`get_dummies` emits an
all-zero indicator row for nulls, `dummy_na=False`). -/
theorem one_hot_completeness_amended (name : String) (vs : List Val)
    (hk : 2 < (uniqueList (dropna vs)).length) :
    (getDummiesCol name vs).length = (uniqueList (dropna vs)).length - 1 ∧
    ∀ i v, vs.get? i = some v →
      ((getDummiesCol name vs).filter
        (fun c => decide (c.series.vals.get? i = some (Val.bool true)))).length ≤ 1 ∧
      ((∀ c ∈ getDummiesCol name vs, c.series.vals.get? i = some (Val.bool false)) ↔
        (v = (dummyLevels vs).headD Val.na ∨ v = Val.na)) := by
  have hlev : (dummyLevels vs).length = (uniqueList (dropna vs)).length :=
    dummyLevels_length vs
  have hnd : (dummyLevels vs).Nodup := dummyLevels_nodup vs
  obtain ⟨hd, tl, hshape⟩ : ∃ hd tl, dummyLevels vs = hd :: tl := by
    cases h : dummyLevels vs with
    | nil => rw [h] at hlev; simp at hlev; omega
    | cons a b => exact ⟨a, b, rfl⟩
  have hhd : (dummyLevels vs).headD Val.na = hd := by rw [hshape]; rfl
  have hdrop : (dummyLevels vs).drop 1 = tl := by rw [hshape]; rfl
  have hndtl : hd ∉ tl ∧ tl.Nodup := by
    rw [hshape] at hnd
    exact ⟨(List.nodup_cons.mp hnd).1, (List.nodup_cons.mp hnd).2⟩
  constructor
  · simp [getDummiesCol, hlev]
  · intro i v hv
    have hget : ∀ lv : Val,
        (vs.map (fun w => Val.bool (w == lv))).get? i = some (Val.bool (v == lv)) := by
      intro lv
      rw [List.get?_map, hv]
      rfl
    constructor
    · rw [getDummiesCol, List.filter_map, List.length_map]
      have hcongr :
          ((dummyLevels vs).drop 1).filter
            ((fun c => decide (c.series.vals.get? i = some (Val.bool true))) ∘
              (fun lv => (⟨name ++ "_" ++ strOfVal lv,
                ⟨.boolT, vs.map (fun w => Val.bool (w == lv))⟩⟩ : Col)))
          = ((dummyLevels vs).drop 1).filter (fun lv => decide (v = lv)) := by
        apply List.filter_congr
        intro lv _
        simp only [Function.comp, hget]
        by_cases hvl : v = lv
        · simp [hvl]
        · simp [hvl, (by simpa using hvl : (v == lv) = false)]
      rw [hcongr, hdrop]
      exact filter_eq_length_le_one hndtl.2 v
    · rw [getDummiesCol, hdrop]
      constructor
      · intro H
        by_cases hna : v = Val.na
        · exact Or.inr hna
        · have hvmem : v ∈ dummyLevels vs :=
            mem_dummyLevels.mpr ⟨List.get?_mem hv, hna⟩
          rw [hshape] at hvmem
          rcases List.mem_cons.mp hvmem with rfl | hvtl
          · exact Or.inl hhd.symm
          · exfalso
            have hfalse := H _ (List.mem_map_of_mem _ hvtl)
            rw [hget v] at hfalse
            simp at hfalse
      · intro H c hc
        rcases List.mem_map.mp hc with ⟨lv, hlv, rfl⟩
        have hlvlev : lv ∈ dummyLevels vs := by
          rw [hshape]
          exact List.mem_cons_of_mem _ hlv
        have hvne : v ≠ lv := by
          rcases H with hhead | hna
          · rw [hhead, hhd]
            intro he
            exact hndtl.1 (he ▸ hlv)
          · intro he
            exact (mem_dummyLevels.mp hlvlev).2 (he ▸ hna.symm).symm
        rw [hget lv]
        simp [(by simpa using hvne : (v == lv) = false)]

/-- Witness for C3 at a concrete column with three distinct values. -/
theorem one_hot_completeness_witness :
    (getDummiesCol "Color" [.str "a", .str "b", .str "c", .str "a"]).length = 2 ∧
    (∀ c ∈ getDummiesCol "Color" [.str "a", .str "b", .str "c", .str "a"],
      c.series.vals.get? 0 = some (Val.bool false)) := by
  have h := one_hot_completeness_amended "Color" [.str "a", .str "b", .str "c", .str "a"]
    (by decide)
  refine ⟨by rw [h.1]; decide, ?_⟩
  exact ((h.2 0 (Val.str "a") (by decide)).2).mpr (Or.inl (by decide))

/-- Counterexample to **C10** as stated: when one of the two observed
values is the literal string "nan", the stringified null collides with
it inside the mapping helper: the helper sees exactly two distinct
strings, the generic branch applies, and the column IS encoded to 0/1
integers (the null row even receives the code of the "nan" level)
instead of being returned as strings. -/
theorem null_binary_counterexample :
    build_features [⟨"X", ⟨.object, [.str "nan", .str "x", .na]⟩⟩]
      = .ok [⟨"X", ⟨.int64, [.int 0, .int 1, .int 0]⟩⟩] := by decide

/-- C10 (amended): a string column with exactly two distinct
non-null observed values, at least one null, and neither observed
value's string form equal to `"nan"` is classified binary by
`build_features`, yet the mapping helper leaves its stringified series
unchanged: after `astype(str)` the null has become the third distinct
string `"nan"`, so no mapping branch applies and the column keeps its
string values (with nulls turned into the string `"nan"`). -/
theorem null_binary_unencoded_amended (df : DataFrame) (name : String) (col : Col)
    (hfind : findCol df name = some col)
    (hobj : col.series.dtype = Dtype.object)
    (hstr : col.series.vals.all isStrOrNa = true)
    (h2 : nuniqueVals col.series.vals = 2)
    (hna : Val.na ∈ col.series.vals)
    (hnan : Val.str "nan" ∉ uniqueList (dropna col.series.vals)) :
    name ∈ binaryColsOf df ∧
    mapBinarySeries col.series.astypeStr = col.series.astypeStr := by
  have hstr' : ∀ v ∈ col.series.vals, v = Val.na ∨ ∃ t, v = Val.str t := by
    intro v hv
    have := (List.all_eq_true.mp hstr) v hv
    cases v with
    | str t => exact Or.inr ⟨t, rfl⟩
    | na => exact Or.inl rfl
    | int n => simp [isStrOrNa] at this
    | bool b => simp [isStrOrNa] at this
  constructor
  · have hmem : col ∈ df := findCol_mem hfind
    have hcn : col.name = name := findCol_name hfind
    have hobjmem : name ∈ objColsOf df := by
      rw [objColsOf]
      rw [← hcn]
      exact List.mem_map_of_mem _ (List.mem_filter.mpr ⟨hmem, by simp [hobj]⟩)
    rw [binaryColsOf]
    refine List.mem_filter.mpr ⟨hobjmem, ?_⟩
    simp only [nuniqueOf, hfind]
    simpa using h2
  · obtain ⟨x, y, hxy⟩ : ∃ x y, uniqueList (dropna col.series.vals) = [x, y] := by
      have h2' : (uniqueList (dropna col.series.vals)).length = 2 := h2
      cases hu : uniqueList (dropna col.series.vals) with
      | nil => rw [hu] at h2'; simp at h2'
      | cons a rest =>
        cases rest with
        | nil => rw [hu] at h2'; simp at h2'
        | cons b rest2 =>
          cases rest2 with
          | nil => exact ⟨a, b, rfl⟩
          | cons c r3 => rw [hu] at h2'; simp at h2'
    have hxu : x ∈ uniqueList (dropna col.series.vals) := by rw [hxy]; simp
    have hyu : y ∈ uniqueList (dropna col.series.vals) := by rw [hxy]; simp
    have hxvals : x ∈ col.series.vals ∧ x ≠ Val.na := mem_dropna.mp (mem_uniqueList.mp hxu)
    have hyvals : y ∈ col.series.vals ∧ y ≠ Val.na := mem_dropna.mp (mem_uniqueList.mp hyu)
    obtain ⟨p, hxp⟩ : ∃ p, x = Val.str p := by
      rcases hstr' x hxvals.1 with h | h
      · exact absurd h hxvals.2
      · exact h
    obtain ⟨q, hyq⟩ : ∃ q, y = Val.str q := by
      rcases hstr' y hyvals.1 with h | h
      · exact absurd h hyvals.2
      · exact h
    have hxyne : x ≠ y := by
      have := nodup_uniqueList (dropna col.series.vals)
      rw [hxy] at this
      simpa using (List.nodup_cons.mp this).1
    have hpq : p ≠ q := by
      intro he
      exact hxyne (by rw [hxp, hyq, he])
    have hpnan : p ≠ "nan" := by
      intro he
      exact hnan (by rw [← he, ← hxp]; exact hxu)
    have hqnan : q ≠ "nan" := by
      intro he
      exact hnan (by rw [← he, ← hyq]; exact hyu)
    have hdropnaAll : dropna col.series.astypeStr.vals = col.series.astypeStr.vals := by
      rw [dropna, List.filter_eq_self]
      intro a ha
      rcases List.mem_map.mp ha with ⟨w, _, rfl⟩
      simp
    have hchar : ∀ z ∈ col.series.astypeStr.vals,
        z = Val.str "nan" ∨ z = Val.str p ∨ z = Val.str q := by
      intro z hz
      rcases List.mem_map.mp hz with ⟨w, hw, rfl⟩
      rcases hstr' w hw with rfl | ⟨t', rfl⟩
      · exact Or.inl rfl
      · have hwu : Val.str t' ∈ uniqueList (dropna col.series.vals) :=
          mem_uniqueList.mpr (mem_dropna.mpr ⟨hw, by simp⟩)
        rw [hxy] at hwu
        rcases List.mem_cons.mp hwu with he | hwu2
        · exact Or.inr (Or.inl (by rw [he, hxp]; rfl))
        · have he : Val.str t' = y := by simpa using hwu2
          exact Or.inr (Or.inr (by rw [he, hyq]; rfl))
    have hin : ∀ z ∈ ([Val.str "nan", Val.str p, Val.str q] : List Val),
        z ∈ uniqueList (dropna col.series.astypeStr.vals) := by
      intro z hz
      rw [hdropnaAll, mem_uniqueList]
      have h1 : Val.str "nan" ∈ col.series.astypeStr.vals :=
        List.mem_map.mpr ⟨Val.na, hna, rfl⟩
      have h2m : Val.str p ∈ col.series.astypeStr.vals :=
        List.mem_map.mpr ⟨x, hxvals.1, by rw [hxp]; rfl⟩
      have h3m : Val.str q ∈ col.series.astypeStr.vals :=
        List.mem_map.mpr ⟨y, hyvals.1, by rw [hyq]; rfl⟩
      rcases List.mem_cons.mp hz with rfl | hz2
      · exact h1
      · rcases List.mem_cons.mp hz2 with rfl | hz3
        · exact h2m
        · rcases List.mem_cons.mp hz3 with rfl | hz4
          · exact h3m
          · simp at hz4
    have hthree_nodup : ([Val.str "nan", Val.str p, Val.str q] : List Val).Nodup := by
      simp [List.nodup_cons, Ne.symm hpnan, Ne.symm hqnan, hpq]
    have hUlen : (uniqueList (dropna col.series.astypeStr.vals)).length = 3 := by
      have hge : 3 ≤ (uniqueList (dropna col.series.astypeStr.vals)).length :=
        (hthree_nodup.subperm hin).length_le
      have hle : (uniqueList (dropna col.series.astypeStr.vals)).length ≤ 3 := by
        have hsub : uniqueList (dropna col.series.astypeStr.vals)
            ⊆ [Val.str "nan", Val.str p, Val.str q] := by
          intro z hz
          rw [hdropnaAll] at hz
          have := hchar z (mem_uniqueList.mp hz)
          simpa using this
        have hll := ((nodup_uniqueList _).subperm hsub).length_le
        simpa using hll
      omega
    have hUstr : ∀ z ∈ uniqueList (dropna col.series.astypeStr.vals), ∃ t, z = Val.str t := by
      intro z hz
      rw [hdropnaAll] at hz
      rcases hchar z (mem_uniqueList.mp hz) with h | h | h
      · exact ⟨_, h⟩
      · exact ⟨_, h⟩
      · exact ⟨_, h⟩
    have hobsnodup :
        ((uniqueList (dropna col.series.astypeStr.vals)).map strOfVal).Nodup := by
      refine List.Nodup.map_on ?_ (nodup_uniqueList _)
      intro z1 h1 z2 h2 he
      obtain ⟨t1, rfl⟩ := hUstr z1 h1
      obtain ⟨t2, rfl⟩ := hUstr z2 h2
      simpa [strOfVal] using he
    have hobslen :
        ((uniqueList (dropna col.series.astypeStr.vals)).map strOfVal).length = 3 := by
      rw [List.length_map, hUlen]
    have hMF : setEqStr ((uniqueList (dropna col.series.astypeStr.vals)).map strOfVal)
        ["M", "F"] = false :=
      setEqStr_false_of_longer hobsnodup (by rw [hobslen]; decide)
    have hFL : setEqStr ((uniqueList (dropna col.series.astypeStr.vals)).map strOfVal)
        ["Legitimate", "Fraud"] = false :=
      setEqStr_false_of_longer hobsnodup (by rw [hobslen]; decide)
    simp only [mapBinarySeries, hMF, hFL, hobslen, Bool.false_eq_true, if_false]
    rw [if_neg (by decide)]

/-- Witness for C10 at a concrete column [a, null, b]. -/
theorem null_binary_witness :
    "G" ∈ binaryColsOf [⟨"G", ⟨.object, [.str "a", .na, .str "b"]⟩⟩] ∧
    mapBinarySeries (Series.astypeStr ⟨.object, [.str "a", .na, .str "b"]⟩)
      = Series.astypeStr ⟨.object, [.str "a", .na, .str "b"]⟩ := by
  have h := null_binary_unencoded_amended
    [⟨"G", ⟨.object, [.str "a", .na, .str "b"]⟩⟩] "G"
    ⟨"G", ⟨.object, [.str "a", .na, .str "b"]⟩⟩
    (by decide) (by decide) (by decide) (by decide) (by decide) (by decide)
  exact h

/-- Counterexample to **C9** as stated: a row in which both cells are
null is ignored by the pair check
(`ignore_row_if="both_values_are_missing"`), so the check passes on a
batch whose only row has the pair (null, null), which is not in the
allow-list — refuting the claimed "passes iff every row's pair is in
the allow-list". -/
theorem pairwise_consistency_counterexample :
    evalCheck [⟨"ClaimLegitimacy", ⟨.object, [.na]⟩⟩, ⟨"ClaimStatus", ⟨.object, [.na]⟩⟩]
        (.pairInSet "ClaimLegitimacy" "ClaimStatus" allowedPairs) = .ok true ∧
    pairRowOk allowedPairs Val.na Val.na = false :=
  ⟨by decide, by decide⟩

/-- C9 (amended): for a batch containing the two columns, the
pairwise-consistency check evaluates to a success flag that is true iff
every row whose two cells are not both null has its pair of values in
the fixed allow-list; rows in which both cells are null are ignored. -/
theorem pairwise_consistency_amended (df : DataFrame) (colA colB : Col)
    (hA : findCol df "ClaimLegitimacy" = some colA)
    (hB : findCol df "ClaimStatus" = some colB) :
    evalCheck df (.pairInSet "ClaimLegitimacy" "ClaimStatus" allowedPairs)
      = .ok (expectPairVals allowedPairs colA.series.vals colB.series.vals) ∧
    (expectPairVals allowedPairs colA.series.vals colB.series.vals = true ↔
      ∀ pr ∈ colA.series.vals.zip colB.series.vals,
        (pr.1 = Val.na ∧ pr.2 = Val.na) ∨ pairRowOk allowedPairs pr.1 pr.2 = true) := by
  constructor
  · simp [evalCheck, hA, hB]
  · rw [expectPairVals, List.all_eq_true]
    constructor
    · intro h pr hpr
      by_cases hb : pr.1 = Val.na ∧ pr.2 = Val.na
      · exact Or.inl hb
      · refine Or.inr (h pr (List.mem_filter.mpr ⟨hpr, ?_⟩))
        simp only [Bool.not_eq_true', Bool.and_eq_false_iff, beq_eq_false_iff_ne]
        by_cases h1 : pr.1 = Val.na
        · exact Or.inr (fun h2 => hb ⟨h1, h2⟩)
        · exact Or.inl h1
    · intro h pr hpr
      have hm := List.mem_filter.mp hpr
      rcases h pr hm.1 with hb | hok
      · exfalso
        have := hm.2
        simp [hb.1, hb.2] at this
      · exact hok

/-- Witness for C9 at a concrete two-column batch with an allowed pair. -/
theorem pairwise_consistency_witness :
    expectPairVals allowedPairs [Val.str "Fraud"] [Val.str "Investigating"] = true := by
  have h := pairwise_consistency_amended
    [⟨"ClaimLegitimacy", ⟨.object, [.str "Fraud"]⟩⟩,
     ⟨"ClaimStatus", ⟨.object, [.str "Investigating"]⟩⟩]
    ⟨"ClaimLegitimacy", ⟨.object, [.str "Fraud"]⟩⟩
    ⟨"ClaimStatus", ⟨.object, [.str "Investigating"]⟩⟩ (by decide) (by decide)
  exact h.2.mpr (by decide)

theorem hasCol_false_iff {df : DataFrame} {n : String} :
    hasCol df n = false ↔ findCol df n = none := by
  cases h : findCol df n <;> simp [hasCol, h]

theorem runCalls_append (df : DataFrame) (l1 l2 : List Check) :
    runCalls df (l1 ++ l2)
      = match runCalls df l1 with
        | .error e => .error e
        | .ok _ => runCalls df l2 := by
  induction l1 with
  | nil => simp [runCalls]
  | cons ck cks ih =>
    simp only [List.cons_append, runCalls]
    cases evalCheck df ck with
    | error e => rfl
    | ok b => exact ih

theorem runCalls_schema_error (df : DataFrame) :
    ∀ (cols : List String) (c : String),
      cols.find? (fun x => !hasCol df x) = some c →
      runCalls df (schemaCallsAux cols) = .error ("KeyError: " ++ c) := by
  intro cols
  induction cols with
  | nil => intro c h; simp [List.find?] at h
  | cons c0 cs ih =>
    intro c h
    by_cases h0 : hasCol df c0
    · rw [List.find?_cons_of_neg _ (by simp [h0])] at h
      have hfc := hasCol_iff.mp h0
      obtain ⟨col, hcol⟩ := hfc
      simp only [schemaCallsAux, runCalls, evalCheck, hcol]
      exact ih c h
    · rw [List.find?_cons_of_pos _ (by simp [h0])] at h
      have hc : c = c0 := (Option.some.inj h).symm
      subst hc
      have hnone : findCol df c = none :=
        hasCol_false_iff.mp (Bool.eq_false_iff.mpr h0)
      simp only [schemaCallsAux, runCalls, evalCheck, hnone]

/-- Counterexample to **C7** as stated: a batch with fifteen of the
sixteen required columns present (only `PatientGender` missing).  The
domain and range checks for the present columns are never evaluated or
reported: `validate_insurance_data` raises `KeyError` at the
interactive non-null check of the missing column and produces no report
at all. -/
theorem validate_partial_counterexample :
    validate_insurance_data
      [⟨"ClaimID", ⟨.object, [.str "C1"]⟩⟩,
       ⟨"PatientID", ⟨.object, [.str "P1"]⟩⟩,
       ⟨"ProviderID", ⟨.object, [.str "V1"]⟩⟩,
       ⟨"ClaimDate", ⟨.object, [.str "2024-01-01"]⟩⟩,
       ⟨"ClaimLegitimacy", ⟨.object, [.str "Fraud"]⟩⟩,
       ⟨"DiagnosisCode", ⟨.object, [.str "D1"]⟩⟩,
       ⟨"ProcedureCode", ⟨.object, [.str "PR1"]⟩⟩,
       ⟨"ProviderSpecialty", ⟨.object, [.str "Cardio"]⟩⟩,
       ⟨"ClaimStatus", ⟨.object, [.str "Investigating"]⟩⟩,
       ⟨"PatientMaritalStatus", ⟨.object, [.str "Single"]⟩⟩,
       ⟨"PatientEmploymentStatus", ⟨.object, [.str "Employed"]⟩⟩,
       ⟨"ProviderLocation", ⟨.object, [.str "NY"]⟩⟩,
       ⟨"ClaimType", ⟨.object, [.str "Inpatient"]⟩⟩,
       ⟨"ClaimSubmissionMethod", ⟨.object, [.str "Online"]⟩⟩,
       ⟨"PatientIncome", ⟨.int64, [.int 1200]⟩⟩]
      = .error "KeyError: PatientGender" := by decide

/-- C7 (amended): on a batch missing a required column, `validate`
does not evaluate and report the remaining checks — it raises `KeyError`
at the interactive non-null check of the first missing required column
(the checks ordered after it, including every domain-membership and
numeric-range check, are never reached, and no report is produced). -/
theorem validate_missing_column_raises (df : DataFrame) (c : String)
    (h : requiredCols.find? (fun x => !hasCol df x) = some c) :
    validate_insurance_data df = .error ("KeyError: " ++ c) := by
  unfold validate_insurance_data
  rw [interactiveCalls, runCalls_append, runCalls_schema_error df requiredCols c h]

/-- Witness for C7 at a concrete batch whose first missing required
column is `PatientID`. -/
theorem validate_missing_column_witness :
    requiredCols.find?
        (fun x => !hasCol [⟨"ClaimID", ⟨.object, [.str "C1"]⟩⟩] x) = some "PatientID" ∧
    validate_insurance_data [⟨"ClaimID", ⟨.object, [.str "C1"]⟩⟩]
      = .error ("KeyError: " ++ "PatientID") :=
  ⟨by decide, validate_missing_column_raises _ _ (by decide)⟩

theorem runCalls_ok_of (df : DataFrame) :
    ∀ l : List Check, (∀ ck ∈ l, ∃ b, evalCheck df ck = .ok b) →
      runCalls df l = .ok () := by
  intro l
  induction l with
  | nil => intro _; rfl
  | cons ck cks ih =>
    intro h
    obtain ⟨b, hb⟩ := h ck (List.mem_cons_self _ _)
    simp only [runCalls, hb]
    exact ih (fun x hx => h x (List.mem_cons_of_mem _ hx))

theorem mem_schemaCallsAux {ck : Check} :
    ∀ {cols : List String}, ck ∈ schemaCallsAux cols →
      ∃ c ∈ cols, ck = .exist c ∨ ck = .notNull c := by
  intro cols
  induction cols with
  | nil => intro h; simp [schemaCallsAux] at h
  | cons c0 cs ih =>
    intro h
    simp only [schemaCallsAux] at h
    rcases List.mem_cons.mp h with rfl | h2
    · exact ⟨c0, List.mem_cons_self _ _, Or.inl rfl⟩
    · rcases List.mem_cons.mp h2 with rfl | h3
      · exact ⟨c0, List.mem_cons_self _ _, Or.inr rfl⟩
      · obtain ⟨c, hc, hck⟩ := ih h3
        exact ⟨c, List.mem_cons_of_mem _ hc, hck⟩

theorem notNull_mem_schemaSuiteAux {c : String} :
    ∀ {cols : List String}, c ∈ cols → c ≠ "PatientIncome" →
      Check.notNull c ∈ schemaSuiteAux cols := by
  intro cols
  induction cols with
  | nil => intro h _; simp at h
  | cons c0 cs ih =>
    intro h hne
    simp only [schemaSuiteAux]
    rcases List.mem_cons.mp h with rfl | h2
    · rw [if_neg hne]
      exact List.mem_cons_of_mem _ (List.mem_cons_self _ _)
    · by_cases h0 : c0 = "PatientIncome"
      · rw [if_pos h0]
        exact List.mem_cons_of_mem _ (ih h2 hne)
      · rw [if_neg h0]
        exact List.mem_cons_of_mem _ (List.mem_cons_of_mem _ (ih h2 hne))

theorem notNull_mem_suite (df : DataFrame) (c : String) (hc : c ∈ requiredCols) :
    Check.notNull c ∈ suiteChecks df := by
  rw [suiteChecks]
  by_cases hic : c = "PatientIncome"
  · subst hic
    refine List.mem_append.mpr (Or.inr ?_)
    rw [tailCalls]
    refine List.mem_append.mpr (Or.inl ?_)
    refine List.mem_append.mpr (Or.inr ?_)
    decide
  · exact List.mem_append.mpr (Or.inl (notNull_mem_schemaSuiteAux hc hic))

theorem domainCall_mem_suite (df : DataFrame) {ck : Check} (h : ck ∈ domainCalls) :
    ck ∈ suiteChecks df := by
  rw [suiteChecks]
  refine List.mem_append.mpr (Or.inr ?_)
  rw [tailCalls]
  refine List.mem_append.mpr (Or.inl ?_)
  exact List.mem_append.mpr (Or.inl h)

theorem between_mem_suite (df : DataFrame) :
    Check.betweenMin0 "PatientIncome" ∈ suiteChecks df := by
  rw [suiteChecks]
  refine List.mem_append.mpr (Or.inr ?_)
  rw [tailCalls]
  refine List.mem_append.mpr (Or.inl ?_)
  refine List.mem_append.mpr (Or.inr ?_)
  decide

theorem pair_mem_suite (df : DataFrame) (hst : hasCol df "ClaimStatus" = true)
    (hlg : hasCol df "ClaimLegitimacy" = true) :
    Check.pairInSet "ClaimLegitimacy" "ClaimStatus" allowedPairs ∈ suiteChecks df := by
  rw [suiteChecks]
  refine List.mem_append.mpr (Or.inr ?_)
  rw [tailCalls, hst, hlg]
  refine List.mem_append.mpr (Or.inr ?_)
  simp

theorem mem_failed_of (df : DataFrame) (ck : Check) (hck : ck ∈ suiteChecks df)
    (hfail : evalOk df ck = false) :
    checkName ck ∈ ((((suiteChecks df).map (fun ck => (checkName ck, evalOk df ck))).filter
      (fun r => !r.2)).map (fun r => r.1)) := by
  refine List.mem_map.mpr ⟨(checkName ck, evalOk df ck), ?_, rfl⟩
  refine List.mem_filter.mpr ⟨List.mem_map.mpr ⟨ck, hck, rfl⟩, ?_⟩
  simp [hfail]

/-- Counterexample to **C8** as stated: a missing required column is a
data-quality violation, yet `validate_insurance_data` raises `KeyError`
for it (at the interactive non-null check evaluated with
`catch_exceptions=False`) instead of completing normally with a report
entry.  Here only `ClaimID` is missing. -/
theorem validate_never_raises_counterexample :
    validate_insurance_data
      [⟨"PatientID", ⟨.object, [.str "P1"]⟩⟩,
       ⟨"ProviderID", ⟨.object, [.str "V1"]⟩⟩,
       ⟨"ClaimDate", ⟨.object, [.str "2024-01-01"]⟩⟩,
       ⟨"ClaimLegitimacy", ⟨.object, [.str "Fraud"]⟩⟩,
       ⟨"PatientGender", ⟨.object, [.str "F"]⟩⟩,
       ⟨"DiagnosisCode", ⟨.object, [.str "D1"]⟩⟩,
       ⟨"ProcedureCode", ⟨.object, [.str "PR1"]⟩⟩,
       ⟨"ProviderSpecialty", ⟨.object, [.str "Cardio"]⟩⟩,
       ⟨"ClaimStatus", ⟨.object, [.str "Investigating"]⟩⟩,
       ⟨"PatientMaritalStatus", ⟨.object, [.str "Single"]⟩⟩,
       ⟨"PatientEmploymentStatus", ⟨.object, [.str "Employed"]⟩⟩,
       ⟨"ProviderLocation", ⟨.object, [.str "NY"]⟩⟩,
       ⟨"ClaimType", ⟨.object, [.str "Inpatient"]⟩⟩,
       ⟨"ClaimSubmissionMethod", ⟨.object, [.str "Online"]⟩⟩,
       ⟨"PatientIncome", ⟨.int64, [.int 1200]⟩⟩]
      = .error "KeyError: ClaimID" := by decide

/-- C8 (amended): value-level data-quality violations never raise.
For every batch in which all sixteen required columns are present and
the income column holds no string cells, `validate_insurance_data`
completes normally with a report, and each value-level violation — a
null in a required column, an out-of-domain value in any of the seven
domain-checked columns, a negative income, a disallowed
legitimacy/status pair — appears as an entry of the returned
failed-expectations list.  A missing required column, by
contrast, raises `KeyError` instead of being reported (see the
counterexample), as does a string-valued income cell at the range
check. -/
theorem validate_reports_violations_amended (df : DataFrame)
    (hall : ∀ c ∈ requiredCols, hasCol df c = true)
    (hinc : incomeNoStrings df = true) :
    ∃ success failed, validate_insurance_data df = .ok (success, failed) ∧
      (∀ c ∈ requiredCols, ∀ col, findCol df c = some col →
        Val.na ∈ col.series.vals → "expect_column_values_to_not_be_null" ∈ failed) ∧
      (∀ c dom, Check.inSet c dom ∈ domainCalls → ∀ col, findCol df c = some col →
        (∃ v ∈ col.series.vals, v ≠ Val.na ∧ valInStrSet dom v = false) →
        "expect_column_values_to_be_in_set" ∈ failed) ∧
      (∀ col n, findCol df "PatientIncome" = some col →
        Val.int n ∈ col.series.vals → n < 0 →
        "expect_column_values_to_be_between" ∈ failed) ∧
      (∀ colA colB, findCol df "ClaimLegitimacy" = some colA →
        findCol df "ClaimStatus" = some colB →
        expectPairVals allowedPairs colA.series.vals colB.series.vals = false →
        "expect_column_pair_values_to_be_in_set" ∈ failed) := by
  have hst : hasCol df "ClaimStatus" = true := hall _ (by decide)
  have hlg : hasCol df "ClaimLegitimacy" = true := hall _ (by decide)
  have hInSetOk : ∀ (c : String) (dom : List String), hasCol df c = true →
      ∃ b, evalCheck df (.inSet c dom) = .ok b := by
    intro c dom hc
    obtain ⟨col, hcol⟩ := hasCol_iff.mp hc
    exact ⟨col.series.vals.all (fun v => v == Val.na || valInStrSet dom v),
      by simp [evalCheck, hcol]⟩
  have hNotNullOk : ∀ c : String, hasCol df c = true →
      ∃ b, evalCheck df (.notNull c) = .ok b := by
    intro c hc
    obtain ⟨col, hcol⟩ := hasCol_iff.mp hc
    exact ⟨col.series.vals.all (fun v => !(v == Val.na)), by simp [evalCheck, hcol]⟩
  have hIncNoStr : ∀ col, findCol df "PatientIncome" = some col →
      col.series.vals.any isStrVal = false := by
    intro col hcol
    rw [incomeNoStrings, hcol] at hinc
    rw [Bool.eq_false_iff]
    intro ha
    obtain ⟨v, hv, hsv⟩ := List.any_eq_true.mp ha
    have := List.all_eq_true.mp hinc v hv
    simp [hsv] at this
  have hBetweenOk : ∃ b, evalCheck df (.betweenMin0 "PatientIncome") = .ok b := by
    obtain ⟨col, hcol⟩ := hasCol_iff.mp (hall "PatientIncome" (by decide))
    refine ⟨col.series.vals.all (fun v =>
      match v with
      | Val.int n => decide (0 ≤ n)
      | _ => true), ?_⟩
    simp only [evalCheck, hcol, hIncNoStr col hcol, Bool.false_eq_true, if_false]
  have hPairOk : ∃ b, evalCheck df
      (.pairInSet "ClaimLegitimacy" "ClaimStatus" allowedPairs) = .ok b := by
    obtain ⟨colA, hA⟩ := hasCol_iff.mp hlg
    obtain ⟨colB, hB⟩ := hasCol_iff.mp hst
    exact ⟨expectPairVals allowedPairs colA.series.vals colB.series.vals,
      by simp [evalCheck, hA, hB]⟩
  have hok : ∀ ck ∈ interactiveCalls df, ∃ b, evalCheck df ck = .ok b := by
    intro ck hck
    rw [interactiveCalls] at hck
    rcases List.mem_append.mp hck with hs | ht
    · obtain ⟨c, hc, hck2 | hck2⟩ := mem_schemaCallsAux hs
      · subst hck2
        exact ⟨_, rfl⟩
      · subst hck2
        exact hNotNullOk c (hall c hc)
    · rw [tailCalls, hst, hlg] at ht
      simp only [domainCalls, List.mem_append, List.mem_cons, List.mem_singleton,
        Bool.and_self, if_pos, List.not_mem_nil, or_false] at ht
      rcases ht with ((rfl | rfl | rfl | rfl | rfl | rfl | rfl) | (rfl | rfl)) | rfl <;>
        first
          | exact hBetweenOk
          | exact hPairOk
          | exact hInSetOk _ _ (hall _ (by decide))
          | exact hNotNullOk _ (hall _ (by decide))
  have hrun : runCalls df (interactiveCalls df) = .ok () := runCalls_ok_of df _ hok
  refine ⟨((suiteChecks df).map (fun ck => (checkName ck, evalOk df ck))).all (fun r => r.2),
    (((suiteChecks df).map (fun ck => (checkName ck, evalOk df ck))).filter
      (fun r => !r.2)).map (fun r => r.1), ?_, ?_, ?_, ?_, ?_⟩
  · unfold validate_insurance_data
    rw [hrun]
  · intro c hc col hcol hna
    have hb : (col.series.vals.all (fun v => !(v == Val.na))) = false := by
      rw [Bool.eq_false_iff]
      intro hx
      have := List.all_eq_true.mp hx Val.na hna
      simp at this
    have hfail : evalOk df (.notNull c) = false := by
      simp [evalOk, evalCheck, hcol, hb]
    exact mem_failed_of df _ (notNull_mem_suite df c hc) hfail
  · intro c dom hdc col hcol hex
    obtain ⟨v, hv, hvna, hvd⟩ := hex
    have hb : (col.series.vals.all
        (fun v => v == Val.na || valInStrSet dom v)) = false := by
      rw [Bool.eq_false_iff]
      intro hx
      have := List.all_eq_true.mp hx v hv
      simp [hvd, (by simpa using hvna : (v == Val.na) = false)] at this
    have hfail : evalOk df (.inSet c dom) = false := by
      simp [evalOk, evalCheck, hcol, hb]
    exact mem_failed_of df _ (domainCall_mem_suite df hdc) hfail
  · intro col n hcol hmem hneg
    have hb : (col.series.vals.all (fun v =>
        match v with
        | Val.int n => decide (0 ≤ n)
        | _ => true)) = false := by
      rw [Bool.eq_false_iff]
      intro hx
      have := List.all_eq_true.mp hx (Val.int n) hmem
      simp at this
      omega
    have hfail : evalOk df (.betweenMin0 "PatientIncome") = false := by
      simp [evalOk, evalCheck, hcol, hIncNoStr col hcol, hb]
    exact mem_failed_of df _ (between_mem_suite df) hfail
  · intro colA colB hA hB hfailpair
    have hfail : evalOk df
        (.pairInSet "ClaimLegitimacy" "ClaimStatus" allowedPairs) = false := by
      simp [evalOk, evalCheck, hA, hB, hfailpair]
    exact mem_failed_of df _ (pair_mem_suite df hst hlg) hfail

/-- Witness for C8 at a concrete full batch containing a null marital
status, an out-of-domain gender, a negative income and a disallowed
pair. -/
theorem validate_reports_violations_witness :
    ∃ success failed, validate_insurance_data
      [⟨"ClaimID", ⟨.object, [.str "C1"]⟩⟩,
       ⟨"PatientID", ⟨.object, [.str "P1"]⟩⟩,
       ⟨"ProviderID", ⟨.object, [.str "V1"]⟩⟩,
       ⟨"ClaimDate", ⟨.object, [.str "2024-01-01"]⟩⟩,
       ⟨"ClaimLegitimacy", ⟨.object, [.str "Legitimate"]⟩⟩,
       ⟨"PatientGender", ⟨.object, [.str "X"]⟩⟩,
       ⟨"DiagnosisCode", ⟨.object, [.str "D1"]⟩⟩,
       ⟨"ProcedureCode", ⟨.object, [.str "PR1"]⟩⟩,
       ⟨"ProviderSpecialty", ⟨.object, [.str "Cardio"]⟩⟩,
       ⟨"ClaimStatus", ⟨.object, [.str "Investigating"]⟩⟩,
       ⟨"PatientMaritalStatus", ⟨.object, [.na]⟩⟩,
       ⟨"PatientEmploymentStatus", ⟨.object, [.str "Employed"]⟩⟩,
       ⟨"ProviderLocation", ⟨.object, [.str "NY"]⟩⟩,
       ⟨"ClaimType", ⟨.object, [.str "Inpatient"]⟩⟩,
       ⟨"ClaimSubmissionMethod", ⟨.object, [.str "Online"]⟩⟩,
       ⟨"PatientIncome", ⟨.int64, [.int (-5)]⟩⟩]
      = .ok (success, failed) ∧
      (∀ c ∈ requiredCols, ∀ col, findCol
        [⟨"ClaimID", ⟨.object, [.str "C1"]⟩⟩,
         ⟨"PatientID", ⟨.object, [.str "P1"]⟩⟩,
         ⟨"ProviderID", ⟨.object, [.str "V1"]⟩⟩,
         ⟨"ClaimDate", ⟨.object, [.str "2024-01-01"]⟩⟩,
         ⟨"ClaimLegitimacy", ⟨.object, [.str "Legitimate"]⟩⟩,
         ⟨"PatientGender", ⟨.object, [.str "X"]⟩⟩,
         ⟨"DiagnosisCode", ⟨.object, [.str "D1"]⟩⟩,
         ⟨"ProcedureCode", ⟨.object, [.str "PR1"]⟩⟩,
         ⟨"ProviderSpecialty", ⟨.object, [.str "Cardio"]⟩⟩,
         ⟨"ClaimStatus", ⟨.object, [.str "Investigating"]⟩⟩,
         ⟨"PatientMaritalStatus", ⟨.object, [.na]⟩⟩,
         ⟨"PatientEmploymentStatus", ⟨.object, [.str "Employed"]⟩⟩,
         ⟨"ProviderLocation", ⟨.object, [.str "NY"]⟩⟩,
         ⟨"ClaimType", ⟨.object, [.str "Inpatient"]⟩⟩,
         ⟨"ClaimSubmissionMethod", ⟨.object, [.str "Online"]⟩⟩,
         ⟨"PatientIncome", ⟨.int64, [.int (-5)]⟩⟩] c = some col →
        Val.na ∈ col.series.vals → "expect_column_values_to_not_be_null" ∈ failed) ∧
      (∀ c dom, Check.inSet c dom ∈ domainCalls → ∀ col, findCol
        [⟨"ClaimID", ⟨.object, [.str "C1"]⟩⟩,
         ⟨"PatientID", ⟨.object, [.str "P1"]⟩⟩,
         ⟨"ProviderID", ⟨.object, [.str "V1"]⟩⟩,
         ⟨"ClaimDate", ⟨.object, [.str "2024-01-01"]⟩⟩,
         ⟨"ClaimLegitimacy", ⟨.object, [.str "Legitimate"]⟩⟩,
         ⟨"PatientGender", ⟨.object, [.str "X"]⟩⟩,
         ⟨"DiagnosisCode", ⟨.object, [.str "D1"]⟩⟩,
         ⟨"ProcedureCode", ⟨.object, [.str "PR1"]⟩⟩,
         ⟨"ProviderSpecialty", ⟨.object, [.str "Cardio"]⟩⟩,
         ⟨"ClaimStatus", ⟨.object, [.str "Investigating"]⟩⟩,
         ⟨"PatientMaritalStatus", ⟨.object, [.na]⟩⟩,
         ⟨"PatientEmploymentStatus", ⟨.object, [.str "Employed"]⟩⟩,
         ⟨"ProviderLocation", ⟨.object, [.str "NY"]⟩⟩,
         ⟨"ClaimType", ⟨.object, [.str "Inpatient"]⟩⟩,
         ⟨"ClaimSubmissionMethod", ⟨.object, [.str "Online"]⟩⟩,
         ⟨"PatientIncome", ⟨.int64, [.int (-5)]⟩⟩] c = some col →
        (∃ v ∈ col.series.vals, v ≠ Val.na ∧ valInStrSet dom v = false) →
        "expect_column_values_to_be_in_set" ∈ failed) ∧
      (∀ col n, findCol
        [⟨"ClaimID", ⟨.object, [.str "C1"]⟩⟩,
         ⟨"PatientID", ⟨.object, [.str "P1"]⟩⟩,
         ⟨"ProviderID", ⟨.object, [.str "V1"]⟩⟩,
         ⟨"ClaimDate", ⟨.object, [.str "2024-01-01"]⟩⟩,
         ⟨"ClaimLegitimacy", ⟨.object, [.str "Legitimate"]⟩⟩,
         ⟨"PatientGender", ⟨.object, [.str "X"]⟩⟩,
         ⟨"DiagnosisCode", ⟨.object, [.str "D1"]⟩⟩,
         ⟨"ProcedureCode", ⟨.object, [.str "PR1"]⟩⟩,
         ⟨"ProviderSpecialty", ⟨.object, [.str "Cardio"]⟩⟩,
         ⟨"ClaimStatus", ⟨.object, [.str "Investigating"]⟩⟩,
         ⟨"PatientMaritalStatus", ⟨.object, [.na]⟩⟩,
         ⟨"PatientEmploymentStatus", ⟨.object, [.str "Employed"]⟩⟩,
         ⟨"ProviderLocation", ⟨.object, [.str "NY"]⟩⟩,
         ⟨"ClaimType", ⟨.object, [.str "Inpatient"]⟩⟩,
         ⟨"ClaimSubmissionMethod", ⟨.object, [.str "Online"]⟩⟩,
         ⟨"PatientIncome", ⟨.int64, [.int (-5)]⟩⟩] "PatientIncome" = some col →
        Val.int n ∈ col.series.vals → n < 0 →
        "expect_column_values_to_be_between" ∈ failed) ∧
      (∀ colA colB, findCol
        [⟨"ClaimID", ⟨.object, [.str "C1"]⟩⟩,
         ⟨"PatientID", ⟨.object, [.str "P1"]⟩⟩,
         ⟨"ProviderID", ⟨.object, [.str "V1"]⟩⟩,
         ⟨"ClaimDate", ⟨.object, [.str "2024-01-01"]⟩⟩,
         ⟨"ClaimLegitimacy", ⟨.object, [.str "Legitimate"]⟩⟩,
         ⟨"PatientGender", ⟨.object, [.str "X"]⟩⟩,
         ⟨"DiagnosisCode", ⟨.object, [.str "D1"]⟩⟩,
         ⟨"ProcedureCode", ⟨.object, [.str "PR1"]⟩⟩,
         ⟨"ProviderSpecialty", ⟨.object, [.str "Cardio"]⟩⟩,
         ⟨"ClaimStatus", ⟨.object, [.str "Investigating"]⟩⟩,
         ⟨"PatientMaritalStatus", ⟨.object, [.na]⟩⟩,
         ⟨"PatientEmploymentStatus", ⟨.object, [.str "Employed"]⟩⟩,
         ⟨"ProviderLocation", ⟨.object, [.str "NY"]⟩⟩,
         ⟨"ClaimType", ⟨.object, [.str "Inpatient"]⟩⟩,
         ⟨"ClaimSubmissionMethod", ⟨.object, [.str "Online"]⟩⟩,
         ⟨"PatientIncome", ⟨.int64, [.int (-5)]⟩⟩] "ClaimLegitimacy" = some colA →
        findCol
        [⟨"ClaimID", ⟨.object, [.str "C1"]⟩⟩,
         ⟨"PatientID", ⟨.object, [.str "P1"]⟩⟩,
         ⟨"ProviderID", ⟨.object, [.str "V1"]⟩⟩,
         ⟨"ClaimDate", ⟨.object, [.str "2024-01-01"]⟩⟩,
         ⟨"ClaimLegitimacy", ⟨.object, [.str "Legitimate"]⟩⟩,
         ⟨"PatientGender", ⟨.object, [.str "X"]⟩⟩,
         ⟨"DiagnosisCode", ⟨.object, [.str "D1"]⟩⟩,
         ⟨"ProcedureCode", ⟨.object, [.str "PR1"]⟩⟩,
         ⟨"ProviderSpecialty", ⟨.object, [.str "Cardio"]⟩⟩,
         ⟨"ClaimStatus", ⟨.object, [.str "Investigating"]⟩⟩,
         ⟨"PatientMaritalStatus", ⟨.object, [.na]⟩⟩,
         ⟨"PatientEmploymentStatus", ⟨.object, [.str "Employed"]⟩⟩,
         ⟨"ProviderLocation", ⟨.object, [.str "NY"]⟩⟩,
         ⟨"ClaimType", ⟨.object, [.str "Inpatient"]⟩⟩,
         ⟨"ClaimSubmissionMethod", ⟨.object, [.str "Online"]⟩⟩,
         ⟨"PatientIncome", ⟨.int64, [.int (-5)]⟩⟩] "ClaimStatus" = some colB →
        expectPairVals allowedPairs colA.series.vals colB.series.vals = false →
        "expect_column_pair_values_to_be_in_set" ∈ failed) :=
  validate_reports_violations_amended _ (by decide) (by decide)
